import Mathlib

/-!
Verification of the OpenWarrant core (packages/core-python/src/openwarrant):
a shallow embedding of the action matcher, constraint evaluators, decision
engine and hash-chained audit ledger, together with theorems settling the
stated claims about them.

Modelling conventions:
* Python runtime values occurring in request contexts and warrant conditions
  are embedded as the inductive `Value` (ints, strings, booleans, None,
  lists, dicts).  Python floats are not modelled; every numeric example in
  the repository uses integers.
* `datetime` values are embedded as integers on a single time line; the
  `tzinfo` normalisation in the source (dropping the timezone) becomes the
  identity, and `isoformat` is rendered as the integer's decimal string.
* Nondeterministic ambient inputs (`datetime.utcnow()`, `uuid.uuid4()`), and
  the SHA-256 hex digest itself, are threaded as explicit parameters; the
  chain-integrity theorems are proved for every digest function, hence in
  particular for SHA-256.
* Fallible evaluation (Python exceptions) is embedded with `Except String`.
* Side-effecting callbacks (event hooks, the audit sink, webhooks) perform
  no state change observable by any claim and are omitted.
-/

/-! ## String helpers (structural stand-ins for Python `str` operations) -/

/-- Python `s.split(".")`, implemented structurally over the character list.
`"".split(".")` is `[""]`; separators at the ends produce empty segments. -/
def splitDotsAux : List Char → List String
  | [] => [""]
  | c :: rest =>
    match splitDotsAux rest, c == '.' with
    | r, true => "" :: r
    | [], false => [String.singleton c]
    | h :: t, false => (String.singleton c ++ h) :: t

/-- Python `s.split(".")` on a `String`. -/
def splitDots (s : String) : List String :=
  splitDotsAux s.toList

/-- Python substring membership `needle in hay` over character lists. -/
def subListOf (needle : List Char) : List Char → Bool
  | [] => needle.isEmpty
  | c :: rest => needle.isPrefixOf (c :: rest) || subListOf needle rest

/-- Python `needle in hay` for strings (contiguous substring membership). -/
def strContains (hay needle : String) : Bool :=
  subListOf needle.toList hay.toList

/-- Python `s.lower()` (ASCII-adequate: every detail string is ASCII-cased). -/
def lowerString (s : String) : String :=
  String.mk (s.toList.map Char.toLower)

/-! ## Embedded Python values

`Value` covers the runtime values the core manipulates in request contexts
and legacy warrant conditions. -/

inductive Value where
  | int (n : Int)
  | str (s : String)
  | bool (b : Bool)
  | vnone
  | list (items : List Value)
  | dict (entries : List (String × Value))

/-- Python truthiness `bool(v)`. -/
def pyBool : Value → Bool
  | Value.int n => n != 0
  | Value.str s => s != ""
  | Value.bool b => b
  | Value.vnone => false
  | Value.list items => !items.isEmpty
  | Value.dict entries => !entries.isEmpty

/-- Python `isinstance(v, (int, float))`; `bool` is a subclass of `int`. -/
def isNumeric : Value → Bool
  | Value.int _ => true
  | Value.bool _ => true
  | _ => false

/-- Numeric value of an `int` or `bool` (`True` counts as 1). -/
def numVal : Value → Int
  | Value.int n => n
  | Value.bool b => if b then 1 else 0
  | _ => 0

mutual

/-- Python `==` on embedded values: numbers compare across `int`/`bool`,
lists compare pointwise, dicts compare as key→value maps (order-blind),
every other cross-type comparison is `False`. -/
def pyEq : Value → Value → Bool
  | Value.int a, Value.int b => a == b
  | Value.int a, Value.bool b => a == (if b then (1 : Int) else 0)
  | Value.bool a, Value.int b => (if a then (1 : Int) else 0) == b
  | Value.bool a, Value.bool b => a == b
  | Value.str a, Value.str b => a == b
  | Value.vnone, Value.vnone => true
  | Value.list a, Value.list b => pyEqList a b
  | Value.dict a, Value.dict b => pyEqDictLe a b && pyEqKeys b a
  | _, _ => false

/-- Pointwise list equality for `pyEq`. -/
def pyEqList : List Value → List Value → Bool
  | [], [] => true
  | a :: as, b :: bs => pyEq a b && pyEqList as bs
  | _, _ => false

/-- Every entry of the first dict appears (by key, with `pyEq`-equal value)
in the second. -/
def pyEqDictLe : List (String × Value) → List (String × Value) → Bool
  | [], _ => true
  | (k, v) :: rest, b => pyEqFind k v b && pyEqDictLe rest b

/-- Key lookup combined with value comparison, first match wins. -/
def pyEqFind : String → Value → List (String × Value) → Bool
  | _, _, [] => false
  | k, v, (k2, v2) :: rest => if k == k2 then pyEq v v2 else pyEqFind k v rest

/-- Every key of the first dict is a key of the second. -/
def pyEqKeys : List (String × Value) → List (String × Value) → Bool
  | [], _ => true
  | (k, _) :: rest, a => a.any (fun kv => kv.1 == k) && pyEqKeys rest a

end

mutual

/-- Python `str(v)`: containers render via `repr` of their elements. -/
def pyStr : Value → String
  | Value.int n => toString n
  | Value.str s => s
  | Value.bool b => if b then "True" else "False"
  | Value.vnone => "None"
  | Value.list items => "[" ++ pyReprJoin items ++ "]"
  | Value.dict entries => "\x7b" ++ pyReprEntries entries ++ "\x7d"

/-- Python `repr(v)` (string quoting simplified to single quotes; the claims
never inspect a repr of a string containing a quote character). -/
def pyRepr : Value → String
  | Value.str s => "\x27" ++ s ++ "\x27"
  | Value.int n => toString n
  | Value.bool b => if b then "True" else "False"
  | Value.vnone => "None"
  | Value.list items => "[" ++ pyReprJoin items ++ "]"
  | Value.dict entries => "\x7b" ++ pyReprEntries entries ++ "\x7d"

/-- Comma-joined `repr`s of list elements. -/
def pyReprJoin : List Value → String
  | [] => ""
  | [v] => pyRepr v
  | v :: rest => pyRepr v ++ ", " ++ pyReprJoin rest

/-- Comma-joined `repr`s of dict entries. -/
def pyReprEntries : List (String × Value) → String
  | [] => ""
  | [(k, v)] => "\x27" ++ k ++ "\x27: " ++ pyRepr v
  | (k, v) :: rest => "\x27" ++ k ++ "\x27: " ++ pyRepr v ++ ", " ++ pyReprEntries rest

end

/-- Character-list lexicographic comparison (Python `str` ordering). -/
def cmpCharList : List Char → List Char → Ordering
  | [], [] => Ordering.eq
  | [], _ :: _ => Ordering.lt
  | _ :: _, [] => Ordering.gt
  | a :: as, b :: bs =>
    if a < b then Ordering.lt
    else if b < a then Ordering.gt
    else cmpCharList as bs

mutual

/-- Python ordered comparison (`<`, `<=`, `>`, `>=`) as a three-way compare:
numbers (`int`/`bool`) with numbers, strings with strings, lists
lexicographically; anything else raises `TypeError`. -/
def pyCmp : Value → Value → Except String Ordering
  | Value.str a, Value.str b => Except.ok (cmpCharList a.toList b.toList)
  | Value.list a, Value.list b => pyCmpList a b
  | a, b =>
    if isNumeric a && isNumeric b then
      Except.ok (compare (numVal a) (numVal b))
    else
      Except.error "TypeError: unsupported comparison between instances"

/-- Lexicographic list comparison for `pyCmp`. -/
def pyCmpList : List Value → List Value → Except String Ordering
  | [], [] => Except.ok Ordering.eq
  | [], _ :: _ => Except.ok Ordering.lt
  | _ :: _, [] => Except.ok Ordering.gt
  | a :: as, b :: bs => do
    let o ← pyCmp a b
    match o with
    | Ordering.eq => pyCmpList as bs
    | o => Except.ok o

end

/-- Python membership `a in b`: element of a list, substring of a string,
key of a dict; other right operands raise `TypeError`. -/
def pyIn (a b : Value) : Except String Bool :=
  match b with
  | Value.list items => Except.ok (items.any (fun x => pyEq a x))
  | Value.str s =>
    match a with
    | Value.str sa => Except.ok (strContains s sa)
    | _ => Except.error "TypeError: \x27in <string>\x27 requires string as left operand"
  | Value.dict entries => Except.ok (entries.any (fun kv => pyEq a (Value.str kv.1)))
  | _ => Except.error "TypeError: argument is not iterable"

/-- Request/constraint contexts: Python `dict[str, Any]` with unique keys,
embedded as association lists; `ctxGet` is `dict.get` (first match). -/
def ctxGet (ctx : List (String × Value)) (key : String) : Option Value :=
  ctx.lookup key

/-! ## Action matcher (action_matcher.py) -/

/-- The loop body of `action_matches`: walk pattern and action segments in
lockstep; `*` returns `True` immediately, a literal mismatch or an exhausted
action returns `False`, and an exhausted pattern requires equal lengths. -/
def segMatches : List String → List String → Bool
  | [], actionParts => actionParts.isEmpty
  | p :: ps, actionParts =>
    if p == "*" then true
    else
      match actionParts with
      | [] => false
      | a :: as => if p != a then false else segMatches ps as

/-- `action_matches(pattern, action)` from action_matcher.py: both sides are
split on `"."` and scanned by `segMatches`. -/
def action_matches (pattern action : String) : Bool :=
  segMatches (splitDots pattern) (splitDots action)

/-! ## Data model (models.py) -/

/-- The closed five-valued decision enum. -/
inductive Decision where
  | AUTHORIZED
  | DENIED
  | ESCALATE
  | NO_WARRANT
  | EXPIRED
deriving DecidableEq, Repr

/-- The string carried by each enum member (`Decision.value` in Python). -/
def Decision.value : Decision → String
  | Decision.AUTHORIZED => "AUTHORIZED"
  | Decision.DENIED => "DENIED"
  | Decision.ESCALATE => "ESCALATE"
  | Decision.NO_WARRANT => "NO_WARRANT"
  | Decision.EXPIRED => "EXPIRED"

/-- Warrant lifecycle status. -/
inductive WarrantStatus where
  | active
  | revoked
  | suspended
deriving DecidableEq, Repr

/-- A structured constraint: field, operator and comparison value. -/
structure Constraint where
  field : String
  operator : String
  value : Value

/-- A warrant definition (models.Warrant); `valid_from`/`valid_until` are
integer time stamps, capability allowlist entries are `dict[str, str]`. -/
structure Warrant where
  id : String
  issuer : String
  signature : String
  roles : List String
  actions : List String
  data_types : List String
  conditions : List (List (String × Value))
  valid_from : Int
  valid_until : Int
  trust_level_required : Int := 0
  audit_required : Bool := true
  escalation_target : String := ""
  notes : String := ""
  context_constraints : List Constraint := []
  allowed_capabilities : List (List (String × String)) := []
  status : Option WarrantStatus := none

/-- A request to check authorization; `timestamp = none` models the
`utcnow()` default applied at evaluation time. -/
structure WarrantRequest where
  agent_id : String
  action : String
  role : String
  data_type : String
  context : List (String × Value) := []
  timestamp : Option Int := none
  correlation_id : Option String := none

/-- Result of evaluating a single condition. -/
structure ConditionResult where
  condition : String
  met : Bool
  detail : String := ""
deriving DecidableEq, Repr

/-- Authority information projected from the matching warrant. -/
structure WarrantAuthority where
  issuer : String
  type : String
  issued : String
  expires : String
  scope : List String
deriving DecidableEq, Repr

/-- Trust elevation information. -/
structure TrustElevation where
  eligible : Bool
  new_level : Option Int := none
deriving DecidableEq, Repr

/-- Response from a warrant check. -/
structure WarrantResponse where
  decision : Decision
  warrant_id : Option String := none
  authority : Option WarrantAuthority := none
  conditions_evaluated : List ConditionResult := []
  audit_hash : String := ""
  previous_hash : String := ""
  trust_elevation : Option TrustElevation := none
  deny_reasons : List String := []
deriving DecidableEq, Repr

/-- Rendering of a model datetime (`isoformat()` on the integer time line). -/
def isoformat (t : Int) : String :=
  toString t

/-! ## Constraint evaluator (conditions.py) -/

/-- The fixed operator set of `evaluate_constraint`. -/
def knownOperators : List String :=
  ["eq", "ne", "in", "not_in", "gt", "gte", "lt", "lte", "contains", "required"]

/-- `evaluate_constraint(constraint, context)` from conditions.py:
`required` tests truthiness of the (possibly absent) field; every other
operator resolves to `False` when the field is absent; an operator outside
the fixed set raises `ValueError("Unknown operator: ...")`. -/
def evaluate_constraint (c : Constraint) (context : List (String × Value)) :
    Except String Bool :=
  if c.operator == "required" then
    Except.ok (pyBool ((ctxGet context c.field).getD Value.vnone))
  else
    match ctxGet context c.field with
    | none => Except.ok false
    | some actual =>
      let expected := c.value
      if c.operator == "eq" then Except.ok (pyEq actual expected)
      else if c.operator == "ne" then Except.ok (!pyEq actual expected)
      else if c.operator == "in" then pyIn actual expected
      else if c.operator == "not_in" then do
        let b ← pyIn actual expected
        Except.ok (!b)
      else if c.operator == "gt" then do
        let o ← pyCmp actual expected
        Except.ok (o == Ordering.gt)
      else if c.operator == "gte" then do
        let o ← pyCmp actual expected
        Except.ok (o != Ordering.lt)
      else if c.operator == "lt" then do
        let o ← pyCmp actual expected
        Except.ok (o == Ordering.lt)
      else if c.operator == "lte" then do
        let o ← pyCmp actual expected
        Except.ok (o != Ordering.gt)
      else if c.operator == "contains" then
        match expected with
        | Value.str s => Except.ok (strContains (pyStr actual) s)
        | _ => Except.error "TypeError: \x27in <string>\x27 requires string as left operand"
      else
        Except.error ("Unknown operator: " ++ c.operator)

/-! ## Audit chain (audit.py) -/

/-- A single tamper-evident audit record. -/
structure AuditRecord where
  record_id : String
  timestamp : String
  agent_id : String
  warrant_id : Option String
  action : String
  decision : String
  conditions_evaluated : List ConditionResult
  correlation_id : Option String
  previous_hash : String
  record_hash : String
deriving DecidableEq, Repr

/-- `AuditChain.GENESIS_HASH`: `"sha256:"` followed by 64 zero hex digits. -/
def GENESIS_HASH : String :=
  "sha256:0000000000000000000000000000000000000000000000000000000000000000"

/-- The audit chain state: the record list and the running previous hash. -/
structure AuditChain where
  chain : List AuditRecord := []
  previous_hash : String := GENESIS_HASH

/-- A freshly constructed `AuditChain()`. -/
def AuditChain.empty : AuditChain :=
  { chain := [], previous_hash := GENESIS_HASH }

/-- `AuditChain.last_hash`. -/
def AuditChain.last_hash (c : AuditChain) : String :=
  c.previous_hash

/-- `_compute_hash(content, previous_hash)`; `hexdigest` abstracts
`hashlib.sha256(·).hexdigest()`, so every theorem stated for all `hexdigest`
holds in particular for SHA-256. -/
def compute_hash (hexdigest : String → String) (content previous_hash : String) :
    String :=
  "sha256:" ++ hexdigest (content ++ previous_hash)

/-- Hex rendering of a nibble, for `\uXXXX` escapes. -/
def hexDigit (n : Nat) : Char :=
  if n < 10 then Char.ofNat (48 + n) else Char.ofNat (87 + (n % 6))

/-- Four-digit hex rendering of a code point below 0x10000. -/
def hex4 (n : Nat) : String :=
  String.mk [hexDigit (n / 4096 % 16), hexDigit (n / 256 % 16),
    hexDigit (n / 16 % 16), hexDigit (n % 16)]

/-- JSON escaping of one character as `json.dumps` does (ASCII output;
code points above 0xFFFF, which need surrogate pairs, do not occur). -/
def jsonEscapeChar (c : Char) : String :=
  if c == '"' then "\\\""
  else if c == '\\' then "\\\\"
  else if c == '\n' then "\\n"
  else if c == '\t' then "\\t"
  else if c == '\r' then "\\r"
  else if c.toNat < 32 || c.toNat > 126 then "\\u" ++ hex4 c.toNat
  else String.singleton c

/-- JSON string escaping. -/
def jsonEscape (s : String) : String :=
  String.join (s.toList.map jsonEscapeChar)

/-- A JSON string literal. -/
def jsonStr (s : String) : String :=
  "\"" ++ jsonEscape s ++ "\""

/-- A JSON string-or-null for an optional value. -/
def jsonOptStr : Option String → String
  | some s => jsonStr s
  | none => "null"

/-- JSON boolean literal. -/
def jsonBool : Bool → String
  | true => "true"
  | false => "false"

/-- One serialized condition dict, keys in `sort_keys=True` order. -/
def jsonCondition (c : ConditionResult) : String :=
  "\x7b\"condition\": " ++ jsonStr c.condition ++ ", \"detail\": " ++
    jsonStr c.detail ++ ", \"met\": " ++ jsonBool c.met ++ "\x7d"

/-- Comma-joined serialized conditions. -/
def jsonConditions : List ConditionResult → String
  | [] => ""
  | [c] => jsonCondition c
  | c :: rest => jsonCondition c ++ ", " ++ jsonConditions rest

/-- The `json.dumps(..., sort_keys=True)` content string hashed by
`AuditChain.record`; keys appear in sorted order. -/
def auditContent (agent_id : String) (warrant_id : Option String)
    (action decision : String) (conditions : List ConditionResult)
    (correlation_id : Option String) (timestamp : String) : String :=
  "\x7b\"action\": " ++ jsonStr action ++
    ", \"agent_id\": " ++ jsonStr agent_id ++
    ", \"conditions\": [" ++ jsonConditions conditions ++ "]" ++
    ", \"correlation_id\": " ++ jsonOptStr correlation_id ++
    ", \"decision\": " ++ jsonStr decision ++
    ", \"timestamp\": " ++ jsonStr (timestamp ++ "Z") ++
    ", \"warrant_id\": " ++ jsonOptStr warrant_id ++ "\x7d"

/-- `AuditChain.record(...)`: build the canonical content, hash it against
the running previous hash, append the record and advance the running hash.
`rid` models `uuid.uuid4().hex[:12]`, `contentTs`/`recordTs` the two
`utcnow().isoformat()` calls; the optional sink callback is external. -/
def AuditChain.record (hexdigest : String → String) (rid contentTs recordTs : String)
    (c : AuditChain) (response : WarrantResponse) (agent_id action : String)
    (correlation_id : Option String) : AuditRecord × AuditChain :=
  let conditions := response.conditions_evaluated
  let content := auditContent agent_id response.warrant_id action
    response.decision.value conditions correlation_id contentTs
  let record_hash := compute_hash hexdigest content c.previous_hash
  let record : AuditRecord :=
    { record_id := "aud-" ++ rid
      timestamp := recordTs ++ "Z"
      agent_id := agent_id
      warrant_id := response.warrant_id
      action := action
      decision := response.decision.value
      conditions_evaluated := conditions
      correlation_id := correlation_id
      previous_hash := c.previous_hash
      record_hash := record_hash }
  (record, { chain := c.chain ++ [record], previous_hash := record_hash })

/-- The loop of `verify_chain`: each record's stored `previous_hash` must
equal the running expected value, which then advances to the record's own
`record_hash`. -/
def verifyFrom (expected : String) : List AuditRecord → Bool
  | [] => true
  | r :: rest => if r.previous_hash != expected then false else verifyFrom r.record_hash rest

/-- `AuditChain.verify_chain()`: an empty chain verifies; otherwise walk the
records from the genesis value. -/
def AuditChain.verify_chain (c : AuditChain) : Bool :=
  if c.chain.isEmpty then true else verifyFrom GENESIS_HASH c.chain

/-- The inputs of one `record` call other than the chain itself. -/
structure RecordInput where
  rid : String
  contentTs : String
  recordTs : String
  response : WarrantResponse
  agent_id : String
  action : String
  correlation_id : Option String := none

/-- Fold a sequence of `record` appends over a chain. -/
def recordMany (hexdigest : String → String) : List RecordInput → AuditChain → AuditChain
  | [], c => c
  | i :: rest, c =>
    recordMany hexdigest rest
      (AuditChain.record hexdigest i.rid i.contentTs i.recordTs c i.response
        i.agent_id i.action i.correlation_id).2

/-! ## Decision engine (engine.py) -/

/-- Coercion of a legacy threshold value:
`int(value) if isinstance(value, (int, float, str)) else 0`.  A `bool` is an
`int` in Python; `int(s)` on a non-numeric string raises `ValueError`
(whitespace stripping of numeric strings is not modelled). -/
def legacyThreshold : Value → Except String Int
  | Value.int n => Except.ok n
  | Value.bool b => Except.ok (if b then 1 else 0)
  | Value.str s =>
    match s.toInt? with
    | some n => Except.ok n
    | none => Except.error ("invalid literal for int() with base 10: " ++ s)
  | _ => Except.ok 0

/-- One `(key, value)` item of the legacy condition loop in
`WarrantEngine._evaluate_conditions`, dispatching exactly as the source:
threshold keys, `payout_within_authority`, boolean/`"required"` values,
list values, string values, then the permissive fallback. -/
def evalLegacyItem (req : WarrantRequest) (key : String) (value : Value) :
    Except String ConditionResult :=
  if key == "escalation_threshold" || key == "single_trade_limit" then do
    let amount := (ctxGet req.context "amount").getD
      ((ctxGet req.context "trade_amount").getD (Value.int 0))
    let threshold ← legacyThreshold value
    if isNumeric amount && numVal amount > threshold then
      Except.ok
        { condition := key
          met := false
          detail := "Amount " ++ pyStr amount ++ " exceeds threshold " ++
            toString threshold ++ " — escalation required" }
    else
      Except.ok
        { condition := key
          met := true
          detail := "Within threshold (" ++ toString threshold ++ ")" }
  else if key == "payout_within_authority" then
    match value with
    | Value.dict entries =>
      let limit := (ctxGet entries req.role).getD (Value.int 0)
      let amount := (ctxGet req.context "amount").getD
        ((ctxGet req.context "payout_amount").getD (Value.int 0))
      if isNumeric amount && isNumeric limit then
        if numVal amount > numVal limit then
          Except.ok
            { condition := key
              met := false
              detail := "Amount " ++ pyStr amount ++ " exceeds " ++ req.role ++
                " limit of " ++ pyStr limit }
        else
          Except.ok
            { condition := key
              met := true
              detail := "Within " ++ req.role ++ " limit (" ++ pyStr limit ++ ")" }
      else
        Except.ok
          { condition := key
            met := true
            detail := "No amount to check" }
    | _ =>
      Except.ok
        { condition := key
          met := true
          detail := "Checked" }
  else if pyEq value (Value.str "required") || (match value with
      | Value.bool true => true
      | _ => false) then
    let met := pyBool ((ctxGet req.context key).getD (Value.bool false))
    Except.ok
      { condition := key
        met := met
        detail := (if met then "Present" else "Missing or false") ++ " in context" }
  else
    match value with
    | Value.list items =>
      let ctx_val := (ctxGet req.context key).getD (Value.str "")
      let met := items.any (fun x => pyEq ctx_val x)
      Except.ok
        { condition := key
          met := met
          detail := "Value \x27" ++ pyStr ctx_val ++ "\x27 " ++
            (if met then "in" else "not in") ++ " allowed: " ++ pyStr value }
    | Value.str s =>
      let ctx_val := (ctxGet req.context key).getD (Value.str "")
      let met := pyStr ctx_val == s
      Except.ok
        { condition := key
          met := met
          detail := "Expected \x27" ++ s ++ "\x27, got \x27" ++ pyStr ctx_val ++ "\x27" }
    | _ =>
      Except.ok
        { condition := key
          met := true
          detail := "Condition accepted" }

/-- `WarrantEngine._evaluate_conditions`: structured `context_constraints`
when non-empty (detail `"{operator} {value}"`), else the legacy dict-based
conditions, flattened in the nested-loop order of the source. -/
def evaluate_conditions (w : Warrant) (req : WarrantRequest) :
    Except String (List ConditionResult) :=
  if !w.context_constraints.isEmpty then
    w.context_constraints.mapM (fun c => do
      let met ← evaluate_constraint c req.context
      Except.ok
        ({ condition := c.field
           met := met
           detail := c.operator ++ " " ++ pyStr c.value } : ConditionResult))
  else do
    let nested ← w.conditions.mapM (fun cond =>
      cond.mapM (fun kv => evalLegacyItem req kv.1 kv.2))
    Except.ok nested.flatten

/-- `WarrantEngine._has_escalation_trigger`: some condition is unmet and its
lowercased detail contains one of the trigger words. -/
def has_escalation_trigger (conditions : List ConditionResult) : Bool :=
  conditions.any (fun c =>
    !c.met && (strContains (lowerString c.detail) "escalation" ||
      strContains (lowerString c.detail) "threshold" ||
      strContains (lowerString c.detail) "exceeds"))

/-- The action gate: some action pattern of the warrant matches. -/
def actionGate (w : Warrant) (req : WarrantRequest) : Bool :=
  w.actions.any (fun pattern => action_matches pattern req.action)

/-- The role gate: empty request role, role allowed, or no role restriction. -/
def roleGate (w : Warrant) (req : WarrantRequest) : Bool :=
  req.role == "" || w.roles.contains req.role || w.roles.isEmpty

/-- The data-type gate, with the same optional-match policy as the role gate. -/
def dataGate (w : Warrant) (req : WarrantRequest) : Bool :=
  req.data_type == "" || w.data_types.contains req.data_type || w.data_types.isEmpty

/-- Temporal failure condition of the source:
`now_naive > valid_until or now_naive < valid_from`. -/
def temporalFails (w : Warrant) (now_naive : Int) : Bool :=
  now_naive > w.valid_until || now_naive < w.valid_from

/-- Equality of an allowlist field (`Optional[str]`) with a context
capability field (`Optional[Any]`), as Python `==` on `.get` results. -/
def capFieldEq (a : Option String) (b : Option Value) : Bool :=
  match a, b with
  | none, none => true
  | some s, some v => pyEq (Value.str s) v
  | _, _ => false

/-- Some allowlisted capability matches the context capability on both
`name` and `version`. -/
def capAllowed (w : Warrant) (entries : List (String × Value)) : Bool :=
  w.allowed_capabilities.any (fun cap =>
    capFieldEq (cap.lookup "name") (ctxGet entries "name") &&
    capFieldEq (cap.lookup "version") (ctxGet entries "version"))

/-- The local mutable state of the `check` loop. -/
structure LoopState where
  deny_reasons : List String := []
  last_expired_warrant : Option Warrant := none
  last_failed_warrant : Option Warrant := none
  last_failed_conditions : List ConditionResult := []

/-- How the warrant loop of `check` terminates. -/
inductive LoopOutcome where
  | authorized (w : Warrant) (conditions : List ConditionResult)
  | escalated (w : Warrant) (conditions : List ConditionResult)
      (deny_reasons : List String)
  | fellThrough (st : LoopState)

/-- The `for w in self._warrants` loop of `WarrantEngine.check`, gate by
gate in source order: status, action, role, data type, temporal, conditions
(with the escalation short-circuit), capability allowlist; the first warrant
to pass every gate terminates with `authorized`. -/
def checkLoop (req : WarrantRequest) (now_naive : Int) :
    List Warrant → LoopState → Except String LoopOutcome
  | [], st => Except.ok (LoopOutcome.fellThrough st)
  | w :: rest, st =>
    if w.status == some WarrantStatus.revoked then
      checkLoop req now_naive rest
        { st with deny_reasons := st.deny_reasons ++ ["warrant:" ++ w.id ++ ":revoked"] }
    else if w.status == some WarrantStatus.suspended then
      checkLoop req now_naive rest
        { st with deny_reasons := st.deny_reasons ++ ["warrant:" ++ w.id ++ ":suspended"] }
    else if !actionGate w req then
      checkLoop req now_naive rest st
    else if !roleGate w req then
      checkLoop req now_naive rest st
    else if !dataGate w req then
      checkLoop req now_naive rest st
    else if temporalFails w now_naive then
      checkLoop req now_naive rest
        { st with
            last_expired_warrant := some w
            deny_reasons := st.deny_reasons ++ ["warrant:" ++ w.id ++ ":expired"] }
    else do
      let conditions ← evaluate_conditions w req
      let failed := conditions.filter (fun c => !c.met)
      if !failed.isEmpty then
        if has_escalation_trigger conditions then
          Except.ok (LoopOutcome.escalated w conditions st.deny_reasons)
        else
          checkLoop req now_naive rest
            { st with
                last_failed_warrant := some w
                last_failed_conditions := conditions
                deny_reasons := st.deny_reasons ++ ["warrant:" ++ w.id ++ ":conditions_failed"] }
      else
        if !w.allowed_capabilities.isEmpty then
          match ctxGet req.context "__capability" with
          | some (Value.dict entries) =>
            -- `if cap_ctx and isinstance(cap_ctx, dict)`: a truthy dict
            if !entries.isEmpty then
              if !capAllowed w entries then
                checkLoop req now_naive rest
                  { st with deny_reasons :=
                      st.deny_reasons ++ ["warrant:" ++ w.id ++ ":capability_not_allowed"] }
              else Except.ok (LoopOutcome.authorized w conditions)
            else Except.ok (LoopOutcome.authorized w conditions)
          | _ => Except.ok (LoopOutcome.authorized w conditions)
        else Except.ok (LoopOutcome.authorized w conditions)

/-- The authority projection built from a matched warrant. -/
def warrantAuthority (w : Warrant) : WarrantAuthority :=
  { issuer := w.issuer
    type := w.id
    issued := isoformat w.valid_from
    expires := isoformat w.valid_until
    scope := w.actions }

/-- The fall-through `DENIED`/`NO_WARRANT` response of `check`, enriched
with the last matched-but-failed warrant when one exists. -/
def defaultDeny (st : LoopState) : WarrantResponse :=
  let decision := if !st.deny_reasons.isEmpty then Decision.DENIED else Decision.NO_WARRANT
  match st.last_failed_warrant with
  | some lw =>
    { decision := decision
      warrant_id := some lw.id
      authority := some (warrantAuthority lw)
      conditions_evaluated := st.last_failed_conditions
      deny_reasons := st.deny_reasons }
  | none =>
    { decision := decision
      warrant_id := none
      authority := none
      conditions_evaluated := []
      deny_reasons := st.deny_reasons }

/-- The post-loop resolution of `check`: `EXPIRED` when a last-expired
warrant exists and every deny reason mentions `"expired"`, else the
`DENIED`/`NO_WARRANT` default. -/
def resolveNoMatch (st : LoopState) : WarrantResponse :=
  match st.last_expired_warrant with
  | some w =>
    if st.deny_reasons.all (fun r => strContains r "expired") then
      { decision := Decision.EXPIRED
        warrant_id := some w.id
        authority := some (warrantAuthority w)
        deny_reasons := st.deny_reasons }
    else defaultDeny st
  | none => defaultDeny st

/-- The engine state that persists between `check` calls. -/
structure EngineState where
  warrants : List Warrant := []
  audit : AuditChain := AuditChain.empty
  execution_count : Nat := 0

/-- `WarrantEngine._record_and_notify`: append the decision to the audit
chain and copy the resulting hashes into the response (the event hooks are
external callbacks with no engine-visible effect). -/
def record_and_notify (hexdigest : String → String) (rid contentTs recordTs : String)
    (eng : EngineState) (response : WarrantResponse) (req : WarrantRequest) :
    WarrantResponse × EngineState :=
  let (record, audit) := AuditChain.record hexdigest rid contentTs recordTs
    eng.audit response req.agent_id req.action req.correlation_id
  ({ response with
      audit_hash := record.record_hash
      previous_hash := record.previous_hash },
    { eng with audit := audit })

/-- `WarrantEngine.check`: run the warrant loop, build the response for the
outcome (including trust-elevation bookkeeping on `AUTHORIZED`), and record
it on the audit chain.  `now` models `datetime.utcnow()`; a `ValueError`
escaping the loop aborts the call with no response and no audit append. -/
def check (hexdigest : String → String) (rid contentTs recordTs : String)
    (now : Int) (eng : EngineState) (req : WarrantRequest) :
    Except String (WarrantResponse × EngineState) := do
  let now_naive := req.timestamp.getD now
  let outcome ← checkLoop req now_naive eng.warrants {}
  match outcome with
  | LoopOutcome.authorized w conditions =>
    let count := eng.execution_count + 1
    -- the two sequential threshold rewrites of the source collapse to this
    let trust_elevation :=
      if count ≥ 50 then some { eligible := true, new_level := some 2 }
      else if count ≥ 10 then some { eligible := true, new_level := some 1 }
      else none
    let response : WarrantResponse :=
      { decision := Decision.AUTHORIZED
        warrant_id := some w.id
        authority := some (warrantAuthority w)
        conditions_evaluated := conditions
        trust_elevation := trust_elevation }
    Except.ok (record_and_notify hexdigest rid contentTs recordTs
      { eng with execution_count := count } response req)
  | LoopOutcome.escalated w conditions deny_reasons =>
    let response : WarrantResponse :=
      { decision := Decision.ESCALATE
        warrant_id := some w.id
        authority := some (warrantAuthority w)
        conditions_evaluated := conditions
        deny_reasons := deny_reasons }
    Except.ok (record_and_notify hexdigest rid contentTs recordTs eng response req)
  | LoopOutcome.fellThrough st =>
    Except.ok (record_and_notify hexdigest rid contentTs recordTs eng
      (resolveNoMatch st) req)

/-- The ambient inputs of one `check` call. -/
structure CheckInput where
  rid : String := ""
  contentTs : String := ""
  recordTs : String := ""
  now : Int := 0
  req : WarrantRequest

/-- A lifetime of `check` calls against one engine: a raising call leaves
the engine state untouched (the Python exception propagates before any
mutation). -/
def runChecks (hexdigest : String → String) : EngineState → List CheckInput → EngineState
  | eng, [] => eng
  | eng, i :: rest =>
    match check hexdigest i.rid i.contentTs i.recordTs i.now eng i.req with
    | Except.ok (_, eng2) => runChecks hexdigest eng2 rest
    | Except.error _ => runChecks hexdigest eng rest

/-! ## Theorems -/

/-- Truncating a pattern at its first `*` does not change the match. -/
theorem segMatches_star_truncates (pre rest : List String) :
    ∀ act, segMatches (pre ++ "*" :: rest) act = segMatches (pre ++ ["*"]) act := by
  induction pre with
  | nil => intro act; simp [segMatches]
  | cons p ps ih =>
    intro act
    by_cases hp : (p == "*") = true
    · simp [segMatches, hp]
    · cases act with
      | nil => simp [segMatches, hp]
      | cons a as =>
        by_cases ha : (p != a) = true
        · simp [segMatches, hp, ha]
        · simp [segMatches, hp, ha, ih]

/-- Without a wildcard, the segment scan is exactly list equality. -/
theorem segMatches_no_star (ps : List String) (hps : "*" ∉ ps) :
    ∀ as, segMatches ps as = true ↔ ps = as := by
  induction ps with
  | nil => intro as; cases as <;> simp [segMatches]
  | cons p ps ih =>
    intro as
    have hp : ¬(p == "*") = true := by
      simp only [beq_iff_eq]
      exact fun h => hps (h ▸ List.mem_cons_self p ps)
    have htail : "*" ∉ ps := fun h => hps (List.mem_cons_of_mem p h)
    cases as with
    | nil => simp [segMatches, hp]
    | cons a as =>
      by_cases ha : p = a
      · subst ha
        simp [segMatches, hp, ih htail]
      · simp [segMatches, hp, ha, bne_iff_ne]

/-- C9: a `*` pattern segment acts as a terminal match — the pattern is
equivalent to its truncation at the first `*` (so `"a.*.c"` behaves as
`"a.*"`, and `"*"` matches every action) — and a wildcard-free pattern
matches exactly the action with the same segments at the same indices. -/
theorem action_wildcard_semantics :
    (∀ (pre rest : List String) (act : List String),
      segMatches (pre ++ "*" :: rest) act = segMatches (pre ++ ["*"]) act)
    ∧ (∀ act : String, action_matches "a.*.c" act = action_matches "a.*" act)
    ∧ (∀ x : String, action_matches "*" x = true)
    ∧ (∀ p a : String, "*" ∉ splitDots p →
        (action_matches p a = true ↔ splitDots p = splitDots a)) := by
  refine ⟨fun pre rest act => segMatches_star_truncates pre rest act, ?_, ?_, ?_⟩
  · intro act
    show segMatches (splitDots "a.*.c") (splitDots act) =
      segMatches (splitDots "a.*") (splitDots act)
    have h1 : splitDots "a.*.c" = ["a", "*", "c"] := by decide
    have h2 : splitDots "a.*" = ["a", "*"] := by decide
    rw [h1, h2]
    exact segMatches_star_truncates ["a"] ["c"] (splitDots act)
  · intro x
    show segMatches (splitDots "*") (splitDots x) = true
    have h1 : splitDots "*" = ["*"] := by decide
    rw [h1]
    simp [segMatches]
  · intro p a hp
    exact segMatches_no_star (splitDots p) hp (splitDots a)

/-- Witness for C9 at concrete patterns and actions. -/
theorem action_wildcard_semantics_witness :
    action_matches "a.*.c" "a.zz.qq" = action_matches "a.*" "a.zz.qq"
    ∧ action_matches "*" "x.y" = true
    ∧ ("*" ∉ splitDots "a.b"
        ∧ (action_matches "a.b" "a.b" = true ↔ splitDots "a.b" = splitDots "a.b")) :=
  ⟨action_wildcard_semantics.2.1 "a.zz.qq",
   action_wildcard_semantics.2.2.1 "x.y",
   by decide,
   action_wildcard_semantics.2.2.2 "a.b" "a.b" (by decide)⟩

/-! ### Audit-chain lemmas -/

/-- The hash that verification expects next after walking `l` from `e`. -/
def runningHash (e : String) (l : List AuditRecord) : String :=
  match l.getLast? with
  | some r => r.record_hash
  | none => e

theorem runningHash_nil (e : String) : runningHash e [] = e := rfl

theorem runningHash_cons (e : String) (x : AuditRecord) (xs : List AuditRecord) :
    runningHash e (x :: xs) = runningHash x.record_hash xs := by
  cases xs with
  | nil => rfl
  | cons y ys =>
    simp only [runningHash, List.getLast?_cons_cons]
    cases h : (y :: ys).getLast? with
    | none => simp at h
    | some r => rfl

theorem runningHash_concat (e : String) (l : List AuditRecord) (r : AuditRecord) :
    runningHash e (l ++ [r]) = r.record_hash := by
  simp [runningHash, List.getLast?_concat]

theorem verify_chain_eq (c : AuditChain) :
    c.verify_chain = verifyFrom GENESIS_HASH c.chain := by
  unfold AuditChain.verify_chain
  cases h : c.chain with
  | nil => simp [verifyFrom]
  | cons x xs => simp

theorem verifyFrom_concat (e : String) (l : List AuditRecord) (r : AuditRecord) :
    verifyFrom e (l ++ [r]) =
      (verifyFrom e l && (r.previous_hash == runningHash e l)) := by
  induction l generalizing e with
  | nil =>
    simp only [List.nil_append, verifyFrom, runningHash_nil]
    cases h : (r.previous_hash == e) <;> simp [h, bne]
  | cons x xs ih =>
    simp only [List.cons_append, verifyFrom]
    cases hx : (x.previous_hash != e)
    · simp [ih, runningHash_cons]
    · simp

/-- The invariant maintained by `record`: the chain verifies and the running
previous hash equals the expected hash of the whole record list. -/
def chainWellFormed (c : AuditChain) : Prop :=
  c.verify_chain = true ∧ c.previous_hash = runningHash GENESIS_HASH c.chain

theorem chainWellFormed_empty : chainWellFormed AuditChain.empty := by
  constructor
  · rfl
  · rfl

theorem chainWellFormed_record (hexdigest : String → String)
    (rid contentTs recordTs : String) (c : AuditChain) (response : WarrantResponse)
    (agent_id action : String) (correlation_id : Option String)
    (h : chainWellFormed c) :
    chainWellFormed (AuditChain.record hexdigest rid contentTs recordTs c response
      agent_id action correlation_id).2 := by
  obtain ⟨h1, h2⟩ := h
  rw [verify_chain_eq] at h1
  constructor
  · rw [verify_chain_eq]
    simp only [AuditChain.record, verifyFrom_concat, h1, Bool.true_and]
    simp [h2]
  · simp [AuditChain.record, runningHash_concat]

theorem chainWellFormed_recordMany (hexdigest : String → String)
    (inputs : List RecordInput) (c : AuditChain) (h : chainWellFormed c) :
    chainWellFormed (recordMany hexdigest inputs c) := by
  induction inputs generalizing c with
  | nil => exact h
  | cons i rest ih =>
    exact ih _ (chainWellFormed_record hexdigest i.rid i.contentTs i.recordTs c
      i.response i.agent_id i.action i.correlation_id h)

/-- C4: a chain built solely by `record` appends verifies (the empty chain
included), and `last_hash` always equals the most recently appended record's
`record_hash`, starting from the genesis value before any append. -/
theorem audit_chain_build_verifies (hexdigest : String → String)
    (inputs : List RecordInput) :
    (recordMany hexdigest inputs AuditChain.empty).verify_chain = true
    ∧ ((recordMany hexdigest inputs AuditChain.empty).chain = [] →
        (recordMany hexdigest inputs AuditChain.empty).last_hash = GENESIS_HASH)
    ∧ (∀ r, (recordMany hexdigest inputs AuditChain.empty).chain.getLast? = some r →
        (recordMany hexdigest inputs AuditChain.empty).last_hash = r.record_hash) := by
  obtain ⟨h1, h2⟩ := chainWellFormed_recordMany hexdigest inputs AuditChain.empty
    chainWellFormed_empty
  refine ⟨h1, ?_, ?_⟩
  · intro hchain
    rw [AuditChain.last_hash, h2, hchain, runningHash_nil]
  · intro r hr
    rw [AuditChain.last_hash, h2, runningHash, hr]

/-- A minimal response used by the concrete audit examples. -/
def respNW : WarrantResponse := { decision := Decision.NO_WARRANT }

/-- One concrete `record` input. -/
def input0 : RecordInput :=
  { rid := "r0", contentTs := "t0", recordTs := "t0", response := respNW
    agent_id := "ag", action := "act" }

/-- A concrete digest stand-in used to instantiate digest-generic theorems. -/
def idHex : String → String := fun s => s

/-- Witness for C4 at concrete inputs: the empty build keeps the genesis
hash, and a one-record build ends at that record's hash. -/
theorem audit_chain_build_verifies_witness :
    (recordMany idHex [] AuditChain.empty).verify_chain = true
    ∧ (recordMany idHex [] AuditChain.empty).last_hash = GENESIS_HASH
    ∧ (recordMany idHex [input0] AuditChain.empty).verify_chain = true
    ∧ ∃ r, (recordMany idHex [input0] AuditChain.empty).chain.getLast? = some r
        ∧ (recordMany idHex [input0] AuditChain.empty).last_hash = r.record_hash :=
  ⟨(audit_chain_build_verifies idHex []).1,
   (audit_chain_build_verifies idHex []).2.1 rfl,
   (audit_chain_build_verifies idHex [input0]).1,
   _, rfl, (audit_chain_build_verifies idHex [input0]).2.2 _ rfl⟩

theorem verifyFrom_set_same_hashes (l : List AuditRecord) :
    ∀ (e : String) (i : Nat) (h : i < l.length) (m : AuditRecord),
      m.previous_hash = (l.get ⟨i, h⟩).previous_hash →
      m.record_hash = (l.get ⟨i, h⟩).record_hash →
      verifyFrom e (l.set i m) = verifyFrom e l := by
  induction l with
  | nil => intro e i h; simp at h
  | cons x xs ih =>
    intro e i h m h1 h2
    cases i with
    | zero =>
      simp only [List.set_cons_zero, verifyFrom]
      rw [h1, h2]
      rfl
    | succ j =>
      simp only [List.set_cons_succ, verifyFrom]
      rw [ih x.record_hash j (Nat.lt_of_succ_lt_succ h) m h1 h2]

/-- C10: mutating any non-hash field of any stored record of a chain built
by `record` appends leaves `verify_chain` true: verification reads only the
stored `previous_hash`/`record_hash` links and never recomputes a record's
hash from its content. -/
theorem verify_ignores_content_fields (hexdigest : String → String)
    (inputs : List RecordInput) (i : Nat)
    (h : i < (recordMany hexdigest inputs AuditChain.empty).chain.length)
    (rid ts ag : String) (wid : Option String) (act dec : String)
    (conds : List ConditionResult) (corr : Option String) :
    AuditChain.verify_chain
      { recordMany hexdigest inputs AuditChain.empty with
        chain := (recordMany hexdigest inputs AuditChain.empty).chain.set i
          { record_id := rid
            timestamp := ts
            agent_id := ag
            warrant_id := wid
            action := act
            decision := dec
            conditions_evaluated := conds
            correlation_id := corr
            previous_hash :=
              ((recordMany hexdigest inputs AuditChain.empty).chain.get ⟨i, h⟩).previous_hash
            record_hash :=
              ((recordMany hexdigest inputs AuditChain.empty).chain.get ⟨i, h⟩).record_hash } } =
      true := by
  rw [verify_chain_eq]
  show verifyFrom GENESIS_HASH ((recordMany hexdigest inputs AuditChain.empty).chain.set i _) = true
  rw [verifyFrom_set_same_hashes _ _ _ h _ (by rfl) (by rfl)]
  have hwf := (chainWellFormed_recordMany hexdigest inputs AuditChain.empty
    chainWellFormed_empty).1
  rwa [verify_chain_eq] at hwf

/-- Witness for C10: rewriting every content field of the single record of a
concretely built chain keeps verification true. -/
theorem verify_ignores_content_fields_witness :
    AuditChain.verify_chain
      { recordMany idHex [input0] AuditChain.empty with
        chain := (recordMany idHex [input0] AuditChain.empty).chain.set 0
          { record_id := "forged"
            timestamp := "2099"
            agent_id := "other"
            warrant_id := some "w9"
            action := "other.action"
            decision := "AUTHORIZED"
            conditions_evaluated := [{ condition := "c", met := true, detail := "d" }]
            correlation_id := some "corr"
            previous_hash :=
              ((recordMany idHex [input0] AuditChain.empty).chain.get
                ⟨0, by decide⟩).previous_hash
            record_hash :=
              ((recordMany idHex [input0] AuditChain.empty).chain.get
                ⟨0, by decide⟩).record_hash } } = true :=
  verify_ignores_content_fields idHex [input0] 0 (by decide) "forged" "2099" "other"
    (some "w9") "other.action" "AUTHORIZED" [{ condition := "c", met := true, detail := "d" }]
    (some "corr")

theorem verifyFrom_head_eq {e : String} {r : AuditRecord} {rest : List AuditRecord}
    (h : verifyFrom e (r :: rest) = true) :
    r.previous_hash = e ∧ verifyFrom r.record_hash rest = true := by
  by_cases hb : (r.previous_hash != e) = true
  · simp [verifyFrom, hb] at h
  · refine ⟨?_, ?_⟩
    · simpa [bne_iff_ne] using hb
    · simpa [verifyFrom, hb] using h

theorem verifyFrom_tamper_prev (l : List AuditRecord) :
    ∀ (e : String) (i : Nat) (h : i < l.length) (v : String),
      verifyFrom e l = true → v ≠ (l.get ⟨i, h⟩).previous_hash →
      verifyFrom e (l.set i { l.get ⟨i, h⟩ with previous_hash := v }) = false := by
  induction l with
  | nil => intro e i h; simp at h
  | cons x xs ih =>
    intro e i h v hv hne
    obtain ⟨hx, hrest⟩ := verifyFrom_head_eq hv
    cases i with
    | zero =>
      have hveq : v ≠ e := by
        intro hcontra
        exact hne (by simpa [List.get_cons_zero, hx] using hcontra)
      simp only [List.set_cons_zero, verifyFrom]
      simp [bne_iff_ne, hveq]
    | succ j =>
      simp only [List.set_cons_succ, verifyFrom]
      rw [if_neg (by simp [bne_iff_ne, hx])]
      exact ih x.record_hash j (Nat.lt_of_succ_lt_succ h) v hrest hne

theorem verifyFrom_tamper_record_hash (l : List AuditRecord) :
    ∀ (e : String) (i : Nat) (h : i + 1 < l.length) (v : String),
      verifyFrom e l = true →
      v ≠ (l.get ⟨i, Nat.lt_of_succ_lt h⟩).record_hash →
      verifyFrom e
        (l.set i { l.get ⟨i, Nat.lt_of_succ_lt h⟩ with record_hash := v }) = false := by
  induction l with
  | nil => intro e i h; simp at h
  | cons x xs ih =>
    intro e i h v hv hne
    obtain ⟨hx, hrest⟩ := verifyFrom_head_eq hv
    cases i with
    | zero =>
      cases xs with
      | nil => simp at h
      | cons y ys =>
        obtain ⟨hy, _⟩ := verifyFrom_head_eq hrest
        have hyv : y.previous_hash ≠ v := by
          rw [hy]
          exact fun hcontra => hne hcontra.symm
        simp only [List.set_cons_zero, verifyFrom]
        rw [if_neg (by simp [bne_iff_ne, hx])]
        simp [bne_iff_ne, hyv]
    | succ j =>
      simp only [List.set_cons_succ, verifyFrom]
      rw [if_neg (by simp [bne_iff_ne, hx])]
      exact ih x.record_hash j (Nat.lt_of_succ_lt_succ h) v hrest hne

/-- C5 (amended): on a chain built by `record` appends, changing any stored
`previous_hash` to a different value falsifies `verify_chain`, and changing
the stored `record_hash` of any record other than the last also does; the
last record's `record_hash` is never compared by the walk. -/
theorem audit_hash_tamper_amended (hexdigest : String → String)
    (inputs : List RecordInput) :
    (∀ (i : Nat) (h : i < (recordMany hexdigest inputs AuditChain.empty).chain.length)
        (v : String),
      v ≠ ((recordMany hexdigest inputs AuditChain.empty).chain.get ⟨i, h⟩).previous_hash →
      AuditChain.verify_chain
        { recordMany hexdigest inputs AuditChain.empty with
          chain := (recordMany hexdigest inputs AuditChain.empty).chain.set i
            { (recordMany hexdigest inputs AuditChain.empty).chain.get ⟨i, h⟩ with
                previous_hash := v } } = false)
    ∧ (∀ (i : Nat)
        (h : i + 1 < (recordMany hexdigest inputs AuditChain.empty).chain.length)
        (v : String),
      v ≠ ((recordMany hexdigest inputs AuditChain.empty).chain.get
          ⟨i, Nat.lt_of_succ_lt h⟩).record_hash →
      AuditChain.verify_chain
        { recordMany hexdigest inputs AuditChain.empty with
          chain := (recordMany hexdigest inputs AuditChain.empty).chain.set i
            { (recordMany hexdigest inputs AuditChain.empty).chain.get
                ⟨i, Nat.lt_of_succ_lt h⟩ with record_hash := v } } = false) := by
  have hwf := (chainWellFormed_recordMany hexdigest inputs AuditChain.empty
    chainWellFormed_empty).1
  rw [verify_chain_eq] at hwf
  constructor
  · intro i h v hne
    rw [verify_chain_eq]
    exact verifyFrom_tamper_prev _ GENESIS_HASH i h v hwf hne
  · intro i h v hne
    rw [verify_chain_eq]
    exact verifyFrom_tamper_record_hash _ GENESIS_HASH i h v hwf hne

/-- Counterexample refuting C5 as stated: on a one-record chain built by
`record`, tampering the (last) record's stored `record_hash` to a different
value leaves `verify_chain` true, because the walk never compares the final
`record_hash` to anything. -/
theorem audit_hash_tamper_counterexample :
    (recordMany idHex [input0] AuditChain.empty).chain.length = 1
    ∧ "sha256:forged" ≠
        ((recordMany idHex [input0] AuditChain.empty).chain.get ⟨0, by decide⟩).record_hash
    ∧ AuditChain.verify_chain
        { recordMany idHex [input0] AuditChain.empty with
          chain := (recordMany idHex [input0] AuditChain.empty).chain.set 0
            { (recordMany idHex [input0] AuditChain.empty).chain.get ⟨0, by decide⟩ with
                record_hash := "sha256:forged" } } = true := by
  refine ⟨by decide, by decide, by decide⟩

/-- Witness for the amended C5 at concrete inputs: tampering the first
record's `previous_hash` of a concretely built two-record chain falsifies
verification, and so does tampering the first (non-last) record's
`record_hash`. -/
theorem audit_hash_tamper_amended_witness :
    AuditChain.verify_chain
      { recordMany idHex [input0, input0] AuditChain.empty with
        chain := (recordMany idHex [input0, input0] AuditChain.empty).chain.set 0
          { (recordMany idHex [input0, input0] AuditChain.empty).chain.get
              ⟨0, by decide⟩ with previous_hash := "sha256:forged" } } = false
    ∧ AuditChain.verify_chain
      { recordMany idHex [input0, input0] AuditChain.empty with
        chain := (recordMany idHex [input0, input0] AuditChain.empty).chain.set 0
          { (recordMany idHex [input0, input0] AuditChain.empty).chain.get
              ⟨0, by decide⟩ with record_hash := "sha256:forged" } } = false := by
  constructor
  · exact (audit_hash_tamper_amended idHex [input0, input0]).1 0 (by decide)
      "sha256:forged" (by decide)
  · exact (audit_hash_tamper_amended idHex [input0, input0]).2 0 (by decide)
      "sha256:forged" (by decide)

theorem mapM_error_of_middle {α β : Type} (f : α → Except String β) (msg : String) :
    ∀ (pre : List α) (c : α) (post : List α),
      (∀ x ∈ pre, ∃ b, f x = Except.ok b) → f c = Except.error msg →
      (pre ++ c :: post).mapM f = Except.error msg := by
  intro pre
  induction pre with
  | nil =>
    intro c post _ hc
    rw [List.nil_append, List.mapM_cons, hc]
    rfl
  | cons p ps ih =>
    intro c post hpre hc
    obtain ⟨b, hb⟩ := hpre p (List.mem_cons_self p ps)
    have hrest : ∀ x ∈ ps, ∃ b, f x = Except.ok b :=
      fun x hx => hpre x (List.mem_cons_of_mem p hx)
    rw [List.cons_append, List.mapM_cons, hb, ih c post hrest hc]
    rfl

/-- C8: an operator outside the fixed set, with the field present, is a
fatal `Unknown operator` error from `evaluate_constraint`; the error is not
caught by `_evaluate_conditions` nor by `check`, which terminates
exceptionally with no decision and no audit append. -/
theorem unknown_operator_fatal :
    (∀ (c : Constraint) (ctx : List (String × Value)),
      c.operator ∉ knownOperators → (ctxGet ctx c.field).isSome = true →
      evaluate_constraint c ctx = Except.error ("Unknown operator: " ++ c.operator))
    ∧ (∀ (w : Warrant) (req : WarrantRequest) (pre : List Constraint) (c : Constraint)
        (post : List Constraint) (msg : String),
      w.context_constraints = pre ++ c :: post →
      (∀ x ∈ pre, ∃ b, evaluate_constraint x req.context = Except.ok b) →
      evaluate_constraint c req.context = Except.error msg →
      evaluate_conditions w req = Except.error msg)
    ∧ (∀ (hexdigest : String → String) (rid cts rts : String) (now : Int)
        (eng : EngineState) (req : WarrantRequest) (w : Warrant) (rest : List Warrant)
        (msg : String),
      eng.warrants = w :: rest →
      w.status ≠ some WarrantStatus.revoked →
      w.status ≠ some WarrantStatus.suspended →
      actionGate w req = true → roleGate w req = true → dataGate w req = true →
      temporalFails w (req.timestamp.getD now) = false →
      evaluate_conditions w req = Except.error msg →
      check hexdigest rid cts rts now eng req = Except.error msg) := by
  refine ⟨?_, ?_, ?_⟩
  · intro c ctx hop hfield
    have req' : c.operator ≠ "required" := fun h => hop (by simp [knownOperators, h])
    have h1 : c.operator ≠ "eq" := fun h => hop (by simp [knownOperators, h])
    have h2 : c.operator ≠ "ne" := fun h => hop (by simp [knownOperators, h])
    have h3 : c.operator ≠ "in" := fun h => hop (by simp [knownOperators, h])
    have h4 : c.operator ≠ "not_in" := fun h => hop (by simp [knownOperators, h])
    have h5 : c.operator ≠ "gt" := fun h => hop (by simp [knownOperators, h])
    have h6 : c.operator ≠ "gte" := fun h => hop (by simp [knownOperators, h])
    have h7 : c.operator ≠ "lt" := fun h => hop (by simp [knownOperators, h])
    have h8 : c.operator ≠ "lte" := fun h => hop (by simp [knownOperators, h])
    have h9 : c.operator ≠ "contains" := fun h => hop (by simp [knownOperators, h])
    obtain ⟨actual, hac⟩ := Option.isSome_iff_exists.mp hfield
    simp [evaluate_constraint, hac, req', h1, h2, h3, h4, h5, h6, h7, h8, h9]
  · intro w req pre c post msg hcc hpre hc
    unfold evaluate_conditions
    rw [hcc]
    rw [if_pos (by simp : (!(pre ++ c :: post).isEmpty) = true)]
    refine mapM_error_of_middle _ msg pre c post ?_ ?_
    · intro x hx
      obtain ⟨b, hb⟩ := hpre x hx
      exact ⟨{ condition := x.field, met := b
               detail := x.operator ++ " " ++ pyStr x.value }, by rw [hb]; rfl⟩
    · rw [hc]
      rfl
  · intro hexdigest rid cts rts now eng req w rest msg hw hst1 hst2 hact hrole hdata
      htemp heval
    have c1 : (w.status == some WarrantStatus.revoked) = false := by
      simp [beq_iff_eq, hst1]
    have c2 : (w.status == some WarrantStatus.suspended) = false := by
      simp [beq_iff_eq, hst2]
    have hloop : checkLoop req (req.timestamp.getD now) (w :: rest) {} =
        Except.error msg := by
      unfold checkLoop
      simp only [c1, c2, hact, hrole, hdata, htemp, Bool.not_true, Bool.not_false,
        if_false, if_true, Bool.false_eq_true, Bool.true_eq_false, ite_false, ite_true]
      rw [heval]
      rfl
    simp only [check, hw, hloop]
    rfl

/-- A structured constraint with an operator outside the fixed set. -/
def cBad : Constraint := { field := "x", operator := "regex", value := Value.int 0 }

/-- A warrant carrying the unknown-operator constraint. -/
def wBad : Warrant :=
  { id := "wb", issuer := "i", signature := "", roles := [], actions := ["do.thing"]
    data_types := [], conditions := [], valid_from := 0, valid_until := 100
    context_constraints := [cBad] }

/-- A request whose context contains the constrained field. -/
def reqBad : WarrantRequest :=
  { agent_id := "a", action := "do.thing", role := "", data_type := ""
    context := [("x", Value.int 1)], timestamp := some 50 }

/-- Witness for C8: the concrete unknown operator raises, and the whole
`check` call on a catalog reaching it terminates with that error. -/
theorem unknown_operator_fatal_witness :
    evaluate_constraint cBad [("x", Value.int 1)] =
      Except.error "Unknown operator: regex"
    ∧ check idHex "r" "t" "t" 0 { warrants := [wBad] } reqBad =
      Except.error "Unknown operator: regex" := by
  constructor
  · exact unknown_operator_fatal.1 cBad [("x", Value.int 1)] (by decide) (by decide)
  · exact unknown_operator_fatal.2.2 idHex "r" "t" "t" 0 { warrants := [wBad] }
      reqBad wBad [] "Unknown operator: regex" rfl (by decide) (by decide) (by decide)
      (by decide) (by decide) (by decide) (by rfl)

theorem exceptBind_ok {α β : Type} (a : α) (k : α → Except String β) :
    (Except.ok a >>= k) = k a := rfl

theorem exceptBind_error {α β : Type} (msg : String) (k : α → Except String β) :
    ((Except.error msg : Except String α) >>= k) = Except.error msg := rfl

/-- C2: a failed condition whose detail carries an escalation trigger word
(case-insensitively) makes the conditions gate return ESCALATE immediately
with that warrant's id and authority, evaluating no later warrant. -/
theorem escalation_short_circuits :
    (∀ (req : WarrantRequest) (now_naive : Int) (w : Warrant) (rest : List Warrant)
        (st : LoopState) (cs : List ConditionResult),
      w.status ≠ some WarrantStatus.revoked →
      w.status ≠ some WarrantStatus.suspended →
      actionGate w req = true → roleGate w req = true → dataGate w req = true →
      temporalFails w now_naive = false →
      evaluate_conditions w req = Except.ok cs →
      (∃ c ∈ cs, c.met = false ∧
        (strContains (lowerString c.detail) "escalation" = true ∨
         strContains (lowerString c.detail) "threshold" = true ∨
         strContains (lowerString c.detail) "exceeds" = true)) →
      checkLoop req now_naive (w :: rest) st =
        Except.ok (LoopOutcome.escalated w cs st.deny_reasons))
    ∧ (∀ (hexdigest : String → String) (rid cts rts : String) (now : Int)
        (eng : EngineState) (req : WarrantRequest) (w : Warrant)
        (cs : List ConditionResult) (deny : List String),
      checkLoop req (req.timestamp.getD now) eng.warrants {} =
        Except.ok (LoopOutcome.escalated w cs deny) →
      ∃ resp eng2, check hexdigest rid cts rts now eng req = Except.ok (resp, eng2) ∧
        resp.decision = Decision.ESCALATE ∧ resp.warrant_id = some w.id ∧
        resp.authority = some (warrantAuthority w) ∧ resp.conditions_evaluated = cs ∧
        resp.deny_reasons = deny) := by
  constructor
  · intro req now_naive w rest st cs hst1 hst2 hact hrole hdata htemp heval hesc
    obtain ⟨c, hc, hmet, hwords⟩ := hesc
    have c1 : (w.status == some WarrantStatus.revoked) = false := by
      simp [beq_iff_eq, hst1]
    have c2 : (w.status == some WarrantStatus.suspended) = false := by
      simp [beq_iff_eq, hst2]
    have htrig : has_escalation_trigger cs = true := by
      unfold has_escalation_trigger
      rw [List.any_eq_true]
      refine ⟨c, hc, ?_⟩
      rcases hwords with h | h | h <;> simp [hmet, h]
    have hfltr : (cs.filter fun c => !c.met).isEmpty = false := by
      rw [List.isEmpty_eq_false_iff_exists_mem]
      exact ⟨c, List.mem_filter.mpr ⟨hc, by simp [hmet]⟩⟩
    unfold checkLoop
    simp only [c1, c2, hact, hrole, hdata, htemp, Bool.not_true, Bool.not_false,
      if_false, if_true, ite_false, ite_true, Bool.false_eq_true, Bool.true_eq_false]
    rw [heval, exceptBind_ok]
    simp only [hfltr, htrig, Bool.not_false, if_true, ite_true]
  · intro hexdigest rid cts rts now eng req w cs deny hloop
    have hcheck : check hexdigest rid cts rts now eng req =
        Except.ok (record_and_notify hexdigest rid cts rts eng
          { decision := Decision.ESCALATE
            warrant_id := some w.id
            authority := some (warrantAuthority w)
            conditions_evaluated := cs
            deny_reasons := deny } req) := by
      simp only [check, hloop, exceptBind_ok]
    exact ⟨_, _, hcheck, rfl, rfl, rfl, rfl, rfl⟩

/-- A warrant with a legacy `single_trade_limit` condition of 50000. -/
def wEsc : Warrant :=
  { id := "w1", issuer := "iss", signature := "", roles := []
    actions := ["trade.execute"], data_types := []
    conditions := [[("single_trade_limit", Value.int 50000)]]
    valid_from := 0, valid_until := 100 }

/-- A warrant with no conditions that authorizes the same action. -/
def wOk : Warrant :=
  { id := "w2", issuer := "iss", signature := "", roles := []
    actions := ["trade.execute"], data_types := [], conditions := []
    valid_from := 0, valid_until := 100 }

/-- A request for that action with `amount` 75000 in context. -/
def reqBig : WarrantRequest :=
  { agent_id := "a", action := "trade.execute", role := "", data_type := ""
    context := [("amount", Value.int 75000)], timestamp := some 50 }

/-- The condition result the engine computes for `wEsc` on `reqBig`. -/
def csEsc : List ConditionResult :=
  [{ condition := "single_trade_limit", met := false
     detail := "Amount 75000 exceeds threshold 50000 — escalation required" }]

theorem evaluate_conditions_wEsc : evaluate_conditions wEsc reqBig = Except.ok csEsc := by
  simp [evaluate_conditions, evalLegacyItem, legacyThreshold, ctxGet, isNumeric,
    numVal, pyStr, wEsc, reqBig, csEsc, List.mapM.loop, exceptBind_ok]
  rfl

/-- Witness for C2: the spec's ESCALATE scenario, with a later warrant that
would authorize: the decision is ESCALATE for the first warrant. -/
theorem escalation_short_circuits_witness :
    ∃ resp eng2,
      check idHex "r" "t" "t" 0 { warrants := [wEsc, wOk] } reqBig =
        Except.ok (resp, eng2) ∧
      resp.decision = Decision.ESCALATE ∧ resp.warrant_id = some "w1" ∧
      resp.authority = some (warrantAuthority wEsc) ∧ resp.deny_reasons = [] := by
  have hloop : checkLoop reqBig (reqBig.timestamp.getD 0) [wEsc, wOk] {} =
      Except.ok (LoopOutcome.escalated wEsc csEsc ([] : List String)) :=
    escalation_short_circuits.1 reqBig 50 wEsc [wOk] {} csEsc (by decide) (by decide)
      (by decide) (by decide) (by decide) (by decide) evaluate_conditions_wEsc
      ⟨{ condition := "single_trade_limit", met := false
         detail := "Amount 75000 exceeds threshold 50000 — escalation required" },
        by simp [csEsc], rfl, Or.inr (Or.inr (by decide))⟩
  obtain ⟨resp, eng2, hck, h1, h2, h3, h4, h5⟩ :=
    escalation_short_circuits.2 idHex "r" "t" "t" 0 { warrants := [wEsc, wOk] }
      reqBig wEsc csEsc [] hloop
  exact ⟨resp, eng2, hck, h1, h2, h3, h5⟩

/-- Counterexample refuting C1 as stated: in the catalog `[wEsc, wOk]` the
warrant `wOk` passes every gate (alone it authorizes), yet the check returns
ESCALATE for `wEsc` — a conditions-gate failure that neither records a deny
reason nor skips to the next warrant. -/
theorem engine_gate_order_counterexample :
    checkLoop reqBig 50 [wOk] {} = Except.ok (LoopOutcome.authorized wOk [])
    ∧ ∃ resp eng2,
        check idHex "r" "t" "t" 0 { warrants := [wEsc, wOk] } reqBig =
          Except.ok (resp, eng2) ∧
        resp.decision = Decision.ESCALATE ∧ resp.decision ≠ Decision.AUTHORIZED ∧
        resp.warrant_id = some "w1" ∧ resp.deny_reasons = [] := by
  constructor
  · rfl
  · refine ⟨_, _, rfl, ?_, ?_, ?_, ?_⟩ <;>
      simp [check, checkLoop, evaluate_conditions, evalLegacyItem, legacyThreshold,
        has_escalation_trigger, actionGate, roleGate, dataGate, temporalFails,
        action_matches, splitDots, splitDotsAux, segMatches, ctxGet, isNumeric,
        numVal, pyStr, strContains, lowerString, subListOf, record_and_notify,
        AuditChain.record, resolveNoMatch, defaultDeny, warrantAuthority,
        List.mapM.loop, exceptBind_ok, wEsc, wOk, reqBig]

/-- The capability gate of `check` passes: no allowlist, no truthy dict
`__capability` entry in context, or a name+version match. -/
def capabilityGatePasses (w : Warrant) (req : WarrantRequest) : Bool :=
  w.allowed_capabilities.isEmpty ||
    (match ctxGet req.context "__capability" with
     | some (Value.dict entries) => entries.isEmpty || capAllowed w entries
     | _ => true)

/-- C1 (amended): the loop examines warrants in catalog order, applying the
gates in the order status, action, role, data-type, temporal, conditions,
capability; action/role/data-type failures skip with no deny reason; status,
temporal, non-escalating conditions and capability failures record their
deny reason and skip; an escalating conditions failure returns ESCALATE
immediately; the first warrant passing every gate yields AUTHORIZED with its
id and authority, with no later warrant evaluated. -/
theorem engine_gate_order_amended :
    (∀ (req : WarrantRequest) (now_naive : Int) (w : Warrant) (rest : List Warrant)
        (st : LoopState),
      w.status = some WarrantStatus.revoked →
      checkLoop req now_naive (w :: rest) st = checkLoop req now_naive rest
        { st with deny_reasons := st.deny_reasons ++ ["warrant:" ++ w.id ++ ":revoked"] })
    ∧ (∀ req now_naive (w : Warrant) rest (st : LoopState),
      w.status = some WarrantStatus.suspended →
      checkLoop req now_naive (w :: rest) st = checkLoop req now_naive rest
        { st with deny_reasons := st.deny_reasons ++ ["warrant:" ++ w.id ++ ":suspended"] })
    ∧ (∀ req now_naive (w : Warrant) rest st,
      w.status ≠ some WarrantStatus.revoked → w.status ≠ some WarrantStatus.suspended →
      actionGate w req = false →
      checkLoop req now_naive (w :: rest) st = checkLoop req now_naive rest st)
    ∧ (∀ req now_naive (w : Warrant) rest st,
      w.status ≠ some WarrantStatus.revoked → w.status ≠ some WarrantStatus.suspended →
      actionGate w req = true → roleGate w req = false →
      checkLoop req now_naive (w :: rest) st = checkLoop req now_naive rest st)
    ∧ (∀ req now_naive (w : Warrant) rest st,
      w.status ≠ some WarrantStatus.revoked → w.status ≠ some WarrantStatus.suspended →
      actionGate w req = true → roleGate w req = true → dataGate w req = false →
      checkLoop req now_naive (w :: rest) st = checkLoop req now_naive rest st)
    ∧ (∀ req now_naive (w : Warrant) rest (st : LoopState),
      w.status ≠ some WarrantStatus.revoked → w.status ≠ some WarrantStatus.suspended →
      actionGate w req = true → roleGate w req = true → dataGate w req = true →
      temporalFails w now_naive = true →
      checkLoop req now_naive (w :: rest) st = checkLoop req now_naive rest
        { st with
            last_expired_warrant := some w
            deny_reasons := st.deny_reasons ++ ["warrant:" ++ w.id ++ ":expired"] })
    ∧ (∀ req now_naive (w : Warrant) rest (st : LoopState) cs,
      w.status ≠ some WarrantStatus.revoked → w.status ≠ some WarrantStatus.suspended →
      actionGate w req = true → roleGate w req = true → dataGate w req = true →
      temporalFails w now_naive = false →
      evaluate_conditions w req = Except.ok cs →
      (cs.filter fun c => !c.met).isEmpty = false →
      has_escalation_trigger cs = false →
      checkLoop req now_naive (w :: rest) st = checkLoop req now_naive rest
        { st with
            last_failed_warrant := some w
            last_failed_conditions := cs
            deny_reasons := st.deny_reasons ++ ["warrant:" ++ w.id ++ ":conditions_failed"] })
    ∧ (∀ req now_naive (w : Warrant) rest (st : LoopState) cs entries,
      w.status ≠ some WarrantStatus.revoked → w.status ≠ some WarrantStatus.suspended →
      actionGate w req = true → roleGate w req = true → dataGate w req = true →
      temporalFails w now_naive = false →
      evaluate_conditions w req = Except.ok cs →
      (cs.filter fun c => !c.met).isEmpty = true →
      w.allowed_capabilities.isEmpty = false →
      ctxGet req.context "__capability" = some (Value.dict entries) →
      entries.isEmpty = false →
      capAllowed w entries = false →
      checkLoop req now_naive (w :: rest) st = checkLoop req now_naive rest
        { st with deny_reasons :=
            st.deny_reasons ++ ["warrant:" ++ w.id ++ ":capability_not_allowed"] })
    ∧ (∀ req now_naive (w : Warrant) rest (st : LoopState) cs,
      w.status ≠ some WarrantStatus.revoked → w.status ≠ some WarrantStatus.suspended →
      actionGate w req = true → roleGate w req = true → dataGate w req = true →
      temporalFails w now_naive = false →
      evaluate_conditions w req = Except.ok cs →
      (cs.filter fun c => !c.met).isEmpty = true →
      capabilityGatePasses w req = true →
      checkLoop req now_naive (w :: rest) st =
        Except.ok (LoopOutcome.authorized w cs))
    ∧ (∀ (hexdigest : String → String) (rid cts rts : String) (now : Int)
        (eng : EngineState) (req : WarrantRequest) (w : Warrant)
        (cs : List ConditionResult),
      checkLoop req (req.timestamp.getD now) eng.warrants {} =
        Except.ok (LoopOutcome.authorized w cs) →
      ∃ resp eng2, check hexdigest rid cts rts now eng req = Except.ok (resp, eng2) ∧
        resp.decision = Decision.AUTHORIZED ∧ resp.warrant_id = some w.id ∧
        resp.authority = some (warrantAuthority w) ∧
        resp.conditions_evaluated = cs) := by
  refine ⟨?_, ?_, ?_, ?_, ?_, ?_, ?_, ?_, ?_, ?_⟩
  · intro req now_naive w rest st h
    conv_lhs => rw [checkLoop.eq_def]
    simp [h]
  · intro req now_naive w rest st h
    have c1 : (w.status == some WarrantStatus.revoked) = false := by
      rw [h]; decide
    conv_lhs => rw [checkLoop.eq_def]
    simp [c1, h]
  · intro req now_naive w rest st h1 h2 hact
    have c1 : (w.status == some WarrantStatus.revoked) = false := by simp [beq_iff_eq, h1]
    have c2 : (w.status == some WarrantStatus.suspended) = false := by simp [beq_iff_eq, h2]
    conv_lhs => rw [checkLoop.eq_def]
    simp [c1, c2, hact]
  · intro req now_naive w rest st h1 h2 hact hrole
    have c1 : (w.status == some WarrantStatus.revoked) = false := by simp [beq_iff_eq, h1]
    have c2 : (w.status == some WarrantStatus.suspended) = false := by simp [beq_iff_eq, h2]
    conv_lhs => rw [checkLoop.eq_def]
    simp [c1, c2, hact, hrole]
  · intro req now_naive w rest st h1 h2 hact hrole hdata
    have c1 : (w.status == some WarrantStatus.revoked) = false := by simp [beq_iff_eq, h1]
    have c2 : (w.status == some WarrantStatus.suspended) = false := by simp [beq_iff_eq, h2]
    conv_lhs => rw [checkLoop.eq_def]
    simp [c1, c2, hact, hrole, hdata]
  · intro req now_naive w rest st h1 h2 hact hrole hdata htemp
    have c1 : (w.status == some WarrantStatus.revoked) = false := by simp [beq_iff_eq, h1]
    have c2 : (w.status == some WarrantStatus.suspended) = false := by simp [beq_iff_eq, h2]
    conv_lhs => rw [checkLoop.eq_def]
    simp [c1, c2, hact, hrole, hdata, htemp]
  · intro req now_naive w rest st cs h1 h2 hact hrole hdata htemp heval hfail htrig
    have c1 : (w.status == some WarrantStatus.revoked) = false := by simp [beq_iff_eq, h1]
    have c2 : (w.status == some WarrantStatus.suspended) = false := by simp [beq_iff_eq, h2]
    conv_lhs => rw [checkLoop.eq_def]
    simp only [c1, c2, hact, hrole, hdata, htemp, Bool.not_true, Bool.not_false,
      if_false, if_true, ite_false, ite_true, Bool.false_eq_true, Bool.true_eq_false]
    rw [heval, exceptBind_ok]
    simp only [hfail, htrig, Bool.not_false, Bool.not_true, if_true, if_false,
      ite_true, ite_false, Bool.false_eq_true, Bool.true_eq_false]
  · intro req now_naive w rest st cs entries h1 h2 hact hrole hdata htemp heval hfail
      hcaps hctx hne hcap
    have c1 : (w.status == some WarrantStatus.revoked) = false := by simp [beq_iff_eq, h1]
    have c2 : (w.status == some WarrantStatus.suspended) = false := by simp [beq_iff_eq, h2]
    conv_lhs => rw [checkLoop.eq_def]
    simp only [c1, c2, hact, hrole, hdata, htemp, Bool.not_true, Bool.not_false,
      if_false, if_true, ite_false, ite_true, Bool.false_eq_true, Bool.true_eq_false]
    rw [heval, exceptBind_ok]
    simp only [hfail, hcaps, hctx, hne, hcap, Bool.not_false, Bool.not_true, if_true,
      if_false, ite_true, ite_false, Bool.false_eq_true, Bool.true_eq_false]
  · intro req now_naive w rest st cs h1 h2 hact hrole hdata htemp heval hfail hcap
    have c1 : (w.status == some WarrantStatus.revoked) = false := by simp [beq_iff_eq, h1]
    have c2 : (w.status == some WarrantStatus.suspended) = false := by simp [beq_iff_eq, h2]
    conv_lhs => rw [checkLoop.eq_def]
    simp only [c1, c2, hact, hrole, hdata, htemp, Bool.not_true, Bool.not_false,
      if_false, if_true, ite_false, ite_true, Bool.false_eq_true, Bool.true_eq_false]
    rw [heval, exceptBind_ok]
    simp only [hfail, Bool.not_true, if_false, ite_false, Bool.true_eq_false]
    rw [if_neg (by simp)]
    unfold capabilityGatePasses at hcap
    by_cases hemp : w.allowed_capabilities.isEmpty = true
    · rw [if_neg (by simp [hemp])]
    · have hemp2 : (!w.allowed_capabilities.isEmpty) = true := by
        simp only [Bool.not_eq_true] at hemp
        simp [hemp]
      rw [if_pos hemp2]
      rw [Bool.or_eq_true] at hcap
      rcases hcap with hcap | hcap
      · exact absurd hcap hemp
      · cases hctx : ctxGet req.context "__capability" with
        | none => simp only [hctx]
        | some v =>
          simp only [hctx] at hcap
          cases v with
          | dict entries =>
            simp only [hctx]
            rw [Bool.or_eq_true] at hcap
            rcases hcap with hcap | hcap
            · rw [if_neg (by simp [hcap])]
            · by_cases he : entries.isEmpty = true
              · rw [if_neg (by simp [he])]
              · have he2 : (!entries.isEmpty) = true := by
                  simp only [Bool.not_eq_true] at he
                  simp [he]
                rw [if_pos he2, if_neg (by simp [hcap])]
          | int n => simp only [hctx]
          | str s => simp only [hctx]
          | bool b => simp only [hctx]
          | vnone => simp only [hctx]
          | list l => simp only [hctx]
  · intro hexdigest rid cts rts now eng req w cs hloop
    have hcheck : check hexdigest rid cts rts now eng req =
        Except.ok (record_and_notify hexdigest rid cts rts
          { eng with execution_count := eng.execution_count + 1 }
          { decision := Decision.AUTHORIZED
            warrant_id := some w.id
            authority := some (warrantAuthority w)
            conditions_evaluated := cs
            trust_elevation :=
              if eng.execution_count + 1 ≥ 50 then
                some { eligible := true, new_level := some 2 }
              else if eng.execution_count + 1 ≥ 10 then
                some { eligible := true, new_level := some 1 }
              else none } req) := by
      simp only [check, hloop, exceptBind_ok]
    exact ⟨_, _, hcheck, rfl, rfl, rfl, rfl⟩

/-- A warrant whose action patterns do not match the request. -/
def wNoMatch : Warrant :=
  { id := "w0", issuer := "iss", signature := "", roles := []
    actions := ["other.action"], data_types := [], conditions := []
    valid_from := 0, valid_until := 100 }

/-- Witness for the amended C1: the multi-warrant-ordering scenario — a
non-matching first warrant is skipped silently and the second warrant
authorizes with its own id and authority. -/
theorem engine_gate_order_amended_witness :
    ∃ resp eng2,
      check idHex "r" "t" "t" 0 { warrants := [wNoMatch, wOk] } reqBig =
        Except.ok (resp, eng2) ∧
      resp.decision = Decision.AUTHORIZED ∧ resp.warrant_id = some "w2" ∧
      resp.authority = some (warrantAuthority wOk) := by
  have hskip : checkLoop reqBig 50 (wNoMatch :: [wOk]) {} = checkLoop reqBig 50 [wOk] {} :=
    engine_gate_order_amended.2.2.1 reqBig 50 wNoMatch [wOk] {} (by decide) (by decide)
      (by decide)
  have hauth : checkLoop reqBig 50 [wOk] {} = Except.ok (LoopOutcome.authorized wOk []) :=
    engine_gate_order_amended.2.2.2.2.2.2.2.2.1 reqBig 50 wOk [] {} [] (by decide)
      (by decide) (by decide) (by decide) (by decide) (by decide) rfl rfl (by decide)
  obtain ⟨resp, eng2, hck, hdec, hwid, hauthy, _⟩ :=
    engine_gate_order_amended.2.2.2.2.2.2.2.2.2 idHex "r" "t" "t" 0
      { warrants := [wNoMatch, wOk] } reqBig wOk [] (hskip.trans hauth)
  exact ⟨resp, eng2, hck, hdec, hwid, hauthy⟩

theorem defaultDeny_decision (st : LoopState) :
    (defaultDeny st).decision =
      (if !st.deny_reasons.isEmpty then Decision.DENIED else Decision.NO_WARRANT) := by
  unfold defaultDeny
  cases st.last_failed_warrant <;> rfl

theorem defaultDeny_decision_ne_expired (st : LoopState) :
    (defaultDeny st).decision ≠ Decision.EXPIRED := by
  rw [defaultDeny_decision]
  by_cases h : st.deny_reasons.isEmpty = true <;> simp [h]

/-- The ESCALATE/AUTHORIZED-free fall-through of `check` reduces to
`defaultDeny` whenever the EXPIRED condition does not hold. -/
theorem resolveNoMatch_eq_defaultDeny (st : LoopState)
    (hne : ¬ ∃ w, st.last_expired_warrant = some w ∧
      ∀ r ∈ st.deny_reasons, strContains r "expired" = true) :
    resolveNoMatch st = defaultDeny st := by
  unfold resolveNoMatch
  cases hle : st.last_expired_warrant with
  | none => rfl
  | some w =>
    dsimp only
    rw [if_neg]
    intro hall
    exact hne ⟨w, hle, fun r hr => List.all_eq_true.mp hall r hr⟩

/-- C3: when the loop falls through (no warrant authorized or escalated),
the decision is EXPIRED with the last temporally-failed warrant's id and
authority exactly when such a warrant exists and every deny reason mentions
expiry; otherwise DENIED exactly when some deny reason was collected (with
the last conditions-failed warrant's data when one exists, else
warrant-less); otherwise NO_WARRANT. -/
theorem post_loop_resolution :
    (∀ (hexdigest : String → String) (rid cts rts : String) (now : Int)
        (eng : EngineState) (req : WarrantRequest) (st : LoopState),
      checkLoop req (req.timestamp.getD now) eng.warrants {} =
        Except.ok (LoopOutcome.fellThrough st) →
      ∃ resp eng2, check hexdigest rid cts rts now eng req = Except.ok (resp, eng2) ∧
        resp.decision = (resolveNoMatch st).decision ∧
        resp.warrant_id = (resolveNoMatch st).warrant_id ∧
        resp.authority = (resolveNoMatch st).authority ∧
        resp.conditions_evaluated = (resolveNoMatch st).conditions_evaluated ∧
        resp.deny_reasons = (resolveNoMatch st).deny_reasons)
    ∧ (∀ st : LoopState,
        (resolveNoMatch st).decision = Decision.EXPIRED ↔
          ∃ w, st.last_expired_warrant = some w ∧
            ∀ r ∈ st.deny_reasons, strContains r "expired" = true)
    ∧ (∀ (st : LoopState) (w : Warrant), st.last_expired_warrant = some w →
        (∀ r ∈ st.deny_reasons, strContains r "expired" = true) →
        (resolveNoMatch st).decision = Decision.EXPIRED ∧
        (resolveNoMatch st).warrant_id = some w.id ∧
        (resolveNoMatch st).authority = some (warrantAuthority w) ∧
        (resolveNoMatch st).deny_reasons = st.deny_reasons)
    ∧ (∀ st : LoopState,
        (¬ ∃ w, st.last_expired_warrant = some w ∧
          ∀ r ∈ st.deny_reasons, strContains r "expired" = true) →
        (((resolveNoMatch st).decision = Decision.DENIED ↔ st.deny_reasons ≠ [])
          ∧ ((resolveNoMatch st).decision = Decision.NO_WARRANT ↔ st.deny_reasons = [])))
    ∧ (∀ (st : LoopState) (lw : Warrant),
        (¬ ∃ w, st.last_expired_warrant = some w ∧
          ∀ r ∈ st.deny_reasons, strContains r "expired" = true) →
        st.last_failed_warrant = some lw →
        (resolveNoMatch st).warrant_id = some lw.id ∧
        (resolveNoMatch st).authority = some (warrantAuthority lw) ∧
        (resolveNoMatch st).conditions_evaluated = st.last_failed_conditions)
    ∧ (∀ st : LoopState,
        (¬ ∃ w, st.last_expired_warrant = some w ∧
          ∀ r ∈ st.deny_reasons, strContains r "expired" = true) →
        st.last_failed_warrant = none →
        (resolveNoMatch st).warrant_id = none ∧
        (resolveNoMatch st).authority = none ∧
        (resolveNoMatch st).conditions_evaluated = []) := by
  refine ⟨?_, ?_, ?_, ?_, ?_, ?_⟩
  · intro hexdigest rid cts rts now eng req st hloop
    have hcheck : check hexdigest rid cts rts now eng req =
        Except.ok (record_and_notify hexdigest rid cts rts eng (resolveNoMatch st) req) := by
      simp only [check, hloop, exceptBind_ok]
    exact ⟨_, _, hcheck, rfl, rfl, rfl, rfl, rfl⟩
  · intro st
    constructor
    · intro hdec
      by_cases hex : ∃ w, st.last_expired_warrant = some w ∧
          ∀ r ∈ st.deny_reasons, strContains r "expired" = true
      · exact hex
      · rw [resolveNoMatch_eq_defaultDeny st hex] at hdec
        exact absurd hdec (defaultDeny_decision_ne_expired st)
    · intro ⟨w, hle, hall⟩
      unfold resolveNoMatch
      rw [hle]
      dsimp only
      rw [if_pos (List.all_eq_true.mpr hall)]
  · intro st w hle hall
    unfold resolveNoMatch
    rw [hle]
    dsimp only
    rw [if_pos (List.all_eq_true.mpr hall)]
    exact ⟨rfl, rfl, rfl, rfl⟩
  · intro st hne
    rw [resolveNoMatch_eq_defaultDeny st hne, defaultDeny_decision]
    by_cases hd : st.deny_reasons.isEmpty = true
    · rw [List.isEmpty_iff] at hd
      simp [hd]
    · have hd2 : st.deny_reasons ≠ [] := by
        intro hcontra
        exact hd (by simp [hcontra])
      simp [hd2, List.isEmpty_iff]
  · intro st lw hne hlf
    rw [resolveNoMatch_eq_defaultDeny st hne]
    unfold defaultDeny
    rw [hlf]
    exact ⟨rfl, rfl, rfl⟩
  · intro st hne hlf
    rw [resolveNoMatch_eq_defaultDeny st hne]
    unfold defaultDeny
    rw [hlf]
    exact ⟨rfl, rfl, rfl⟩

/-- A request after `wOk`'s validity window. -/
def reqLate : WarrantRequest :=
  { agent_id := "a", action := "trade.execute", role := "", data_type := ""
    context := [], timestamp := some 200 }

/-- The loop state after `wOk` fails the temporal gate on `reqLate`. -/
def stLate : LoopState :=
  { deny_reasons := ["warrant:w2:expired"], last_expired_warrant := some wOk }

/-- Witness for C3: the spec's EXPIRED scenario — a warrant valid only in
the past yields decision EXPIRED carrying that warrant's id and authority. -/
theorem post_loop_resolution_witness :
    ∃ resp eng2,
      check idHex "r" "t" "t" 0 { warrants := [wOk] } reqLate =
        Except.ok (resp, eng2) ∧
      resp.decision = Decision.EXPIRED ∧ resp.warrant_id = some "w2" ∧
      resp.authority = some (warrantAuthority wOk) := by
  have hloop : checkLoop reqLate (reqLate.timestamp.getD 0) [wOk] {} =
      Except.ok (LoopOutcome.fellThrough stLate) := rfl
  obtain ⟨resp, eng2, hck, h1, h2, h3, _, _⟩ :=
    post_loop_resolution.1 idHex "r" "t" "t" 0 { warrants := [wOk] } reqLate stLate hloop
  obtain ⟨hd, hw, ha, _⟩ := post_loop_resolution.2.2.1 stLate wOk rfl (by decide)
  exact ⟨resp, eng2, hck, h1.trans hd, h2.trans hw, h3.trans ha⟩

/-- A warrant with a non-empty capability allowlist. -/
def wCap : Warrant :=
  { id := "wc", issuer := "iss", signature := "", roles := []
    actions := ["ai.predict"], data_types := [], conditions := []
    valid_from := 0, valid_until := 100
    allowed_capabilities := [[("name", "sepsis_model"), ("version", "3.2")]] }

/-- A matching request whose context has no `__capability` entry. -/
def reqNoCap : WarrantRequest :=
  { agent_id := "a", action := "ai.predict", role := "", data_type := ""
    context := [], timestamp := some 50 }

/-- A request declaring a capability that is not allowlisted. -/
def reqOtherCap : WarrantRequest :=
  { agent_id := "a", action := "ai.predict", role := "", data_type := ""
    context := [("__capability",
      Value.dict [("name", Value.str "other_model"), ("version", Value.str "1.0")])]
    timestamp := some 50 }

/-- Counterexample refuting C6 as stated: a warrant with a non-empty
allowlist authorizes a request whose context carries no `__capability`
entry at all — the gate is only enforced when a truthy dict entry is
present. -/
theorem capability_gate_counterexample :
    wCap.allowed_capabilities ≠ []
    ∧ ctxGet reqNoCap.context "__capability" = none
    ∧ ∃ resp eng2,
        check idHex "r" "t" "t" 0 { warrants := [wCap] } reqNoCap =
          Except.ok (resp, eng2) ∧
        resp.decision = Decision.AUTHORIZED ∧ resp.warrant_id = some "wc" ∧
        resp.deny_reasons = [] := by
  refine ⟨by decide, rfl, _, _, rfl, rfl, rfl, rfl⟩

/-- C6 (amended): for a warrant with a non-empty allowlist that passes all
prior gates, when the request context carries a truthy dict `__capability`
entry, authorization requires a name+version match with some allowlisted
entry; on mismatch the deny reason `warrant:<id>:capability_not_allowed` is
recorded and the warrant is skipped; an absent or non-dict or empty-dict
entry leaves the gate unenforced. -/
theorem capability_gate_amended :
    (∀ (req : WarrantRequest) (now_naive : Int) (w : Warrant) (rest : List Warrant)
        (st : LoopState) (cs : List ConditionResult)
        (entries : List (String × Value)),
      w.status ≠ some WarrantStatus.revoked → w.status ≠ some WarrantStatus.suspended →
      actionGate w req = true → roleGate w req = true → dataGate w req = true →
      temporalFails w now_naive = false →
      evaluate_conditions w req = Except.ok cs →
      (cs.filter fun c => !c.met).isEmpty = true →
      w.allowed_capabilities.isEmpty = false →
      ctxGet req.context "__capability" = some (Value.dict entries) →
      entries.isEmpty = false →
      capAllowed w entries = false →
      checkLoop req now_naive (w :: rest) st = checkLoop req now_naive rest
        { st with deny_reasons :=
            st.deny_reasons ++ ["warrant:" ++ w.id ++ ":capability_not_allowed"] })
    ∧ (∀ (req : WarrantRequest) (now_naive : Int) (w : Warrant) (rest : List Warrant)
        (st : LoopState) (cs : List ConditionResult)
        (entries : List (String × Value)),
      w.status ≠ some WarrantStatus.revoked → w.status ≠ some WarrantStatus.suspended →
      actionGate w req = true → roleGate w req = true → dataGate w req = true →
      temporalFails w now_naive = false →
      evaluate_conditions w req = Except.ok cs →
      (cs.filter fun c => !c.met).isEmpty = true →
      w.allowed_capabilities.isEmpty = false →
      ctxGet req.context "__capability" = some (Value.dict entries) →
      entries.isEmpty = false →
      capAllowed w entries = true →
      checkLoop req now_naive (w :: rest) st =
        Except.ok (LoopOutcome.authorized w cs)) := by
  constructor
  · intro req now_naive w rest st cs entries h1 h2 hact hrole hdata htemp heval hfail
      hcaps hctx hne hcap
    have c1 : (w.status == some WarrantStatus.revoked) = false := by simp [beq_iff_eq, h1]
    have c2 : (w.status == some WarrantStatus.suspended) = false := by simp [beq_iff_eq, h2]
    conv_lhs => rw [checkLoop.eq_def]
    simp only [c1, c2, hact, hrole, hdata, htemp, Bool.not_true, Bool.not_false,
      if_false, if_true, ite_false, ite_true, Bool.false_eq_true, Bool.true_eq_false]
    rw [heval, exceptBind_ok]
    simp only [hfail, hcaps, hctx, hne, hcap, Bool.not_false, Bool.not_true, if_true,
      if_false, ite_true, ite_false, Bool.false_eq_true, Bool.true_eq_false]
  · intro req now_naive w rest st cs entries h1 h2 hact hrole hdata htemp heval hfail
      hcaps hctx hne hcap
    have c1 : (w.status == some WarrantStatus.revoked) = false := by simp [beq_iff_eq, h1]
    have c2 : (w.status == some WarrantStatus.suspended) = false := by simp [beq_iff_eq, h2]
    conv_lhs => rw [checkLoop.eq_def]
    simp only [c1, c2, hact, hrole, hdata, htemp, Bool.not_true, Bool.not_false,
      if_false, if_true, ite_false, ite_true, Bool.false_eq_true, Bool.true_eq_false]
    rw [heval, exceptBind_ok]
    simp only [hfail, hcaps, hctx, hne, hcap, Bool.not_false, Bool.not_true, if_true,
      if_false, ite_true, ite_false, Bool.false_eq_true, Bool.true_eq_false]

/-- Witness for the amended C6: the spec's capability scenario — allowlist
`(sepsis_model, 3.2)` against request capability `(other_model, 1.0)` —
records the capability deny reason and skips the warrant, ending with no
warrant matched. -/
theorem capability_gate_amended_witness :
    checkLoop reqOtherCap 50 [wCap] {} =
      Except.ok (LoopOutcome.fellThrough
        { deny_reasons := ["warrant:wc:capability_not_allowed"] }) := by
  have h := capability_gate_amended.1 reqOtherCap 50 wCap [] {} []
    [("name", Value.str "other_model"), ("version", Value.str "1.0")]
    (by decide) (by decide) (by decide) (by decide) (by decide) (by decide) rfl rfl
    (by decide) rfl (by decide)
    (by simp [capAllowed, capFieldEq, pyEq, ctxGet, wCap])
  exact h.trans rfl

theorem defaultDeny_trust (st : LoopState) : (defaultDeny st).trust_elevation = none := by
  unfold defaultDeny
  cases st.last_failed_warrant <;> rfl

theorem resolveNoMatch_trust (st : LoopState) :
    (resolveNoMatch st).trust_elevation = none := by
  unfold resolveNoMatch
  cases st.last_expired_warrant with
  | none => exact defaultDeny_trust st
  | some w =>
    dsimp only
    by_cases hall : (st.deny_reasons.all fun r => strContains r "expired") = true
    · rw [if_pos hall]
    · rw [if_neg hall]
      exact defaultDeny_trust st

theorem resolveNoMatch_decision_ne_authorized (st : LoopState) :
    (resolveNoMatch st).decision ≠ Decision.AUTHORIZED := by
  unfold resolveNoMatch
  cases st.last_expired_warrant with
  | none =>
    rw [defaultDeny_decision]
    by_cases h : st.deny_reasons.isEmpty = true <;> simp [h]
  | some w =>
    dsimp only
    by_cases hall : (st.deny_reasons.all fun r => strContains r "expired") = true
    · rw [if_pos hall]
      simp
    · rw [if_neg hall, defaultDeny_decision]
      by_cases h : st.deny_reasons.isEmpty = true <;> simp [h]

theorem check_count_le (hexdigest : String → String) (rid cts rts : String) (now : Int)
    (eng : EngineState) (req : WarrantRequest) (resp : WarrantResponse)
    (eng2 : EngineState) (h : check hexdigest rid cts rts now eng req =
      Except.ok (resp, eng2)) :
    eng.execution_count ≤ eng2.execution_count := by
  cases hloop : checkLoop req (req.timestamp.getD now) eng.warrants {} with
  | error e => simp [check, hloop, exceptBind_error] at h
  | ok outcome =>
    simp only [check, hloop, exceptBind_ok] at h
    cases outcome with
    | authorized w cs =>
      have heq := Except.ok.inj h
      have heng : _ = eng2 := congrArg Prod.snd heq
      subst heng
      exact Nat.le_succ _
    | escalated w cs deny =>
      have heq := Except.ok.inj h
      have heng : _ = eng2 := congrArg Prod.snd heq
      subst heng
      exact Nat.le_refl _
    | fellThrough st =>
      have heq := Except.ok.inj h
      have heng : _ = eng2 := congrArg Prod.snd heq
      subst heng
      exact Nat.le_refl _

/-- C7: every AUTHORIZED decision increments the authorized counter by one
and the counter never decreases over the engine's lifetime; the response
carries tier 2 at counter 50 and above, tier 1 from 10 to 49, nothing below
10, and non-AUTHORIZED responses never carry a trust elevation. -/
theorem trust_elevation_counter :
    (∀ (hexdigest : String → String) (rid cts rts : String) (now : Int)
        (eng : EngineState) (req : WarrantRequest) (resp : WarrantResponse)
        (eng2 : EngineState),
      check hexdigest rid cts rts now eng req = Except.ok (resp, eng2) →
      ((resp.decision = Decision.AUTHORIZED →
          eng2.execution_count = eng.execution_count + 1
          ∧ (50 ≤ eng2.execution_count →
              resp.trust_elevation = some { eligible := true, new_level := some 2 })
          ∧ (10 ≤ eng2.execution_count → eng2.execution_count < 50 →
              resp.trust_elevation = some { eligible := true, new_level := some 1 })
          ∧ (eng2.execution_count < 10 → resp.trust_elevation = none))
        ∧ (resp.decision ≠ Decision.AUTHORIZED →
            resp.trust_elevation = none ∧ eng2.execution_count = eng.execution_count)
        ∧ eng.execution_count ≤ eng2.execution_count))
    ∧ (∀ (hexdigest : String → String) (eng : EngineState) (inputs : List CheckInput),
        eng.execution_count ≤ (runChecks hexdigest eng inputs).execution_count) := by
  constructor
  · intro hexdigest rid cts rts now eng req resp eng2 h
    refine ⟨?_, ?_, check_count_le hexdigest rid cts rts now eng req resp eng2 h⟩
    · intro hdec
      cases hloop : checkLoop req (req.timestamp.getD now) eng.warrants {} with
      | error e => simp [check, hloop, exceptBind_error] at h
      | ok outcome =>
        simp only [check, hloop, exceptBind_ok] at h
        cases outcome with
        | authorized w cs =>
          have heq := Except.ok.inj h
          have hresp : _ = resp := congrArg Prod.fst heq
          have heng : _ = eng2 := congrArg Prod.snd heq
          subst hresp
          subst heng
          refine ⟨rfl, ?_, ?_, ?_⟩
          · intro h50
            have h50a : eng.execution_count + 1 ≥ 50 := h50
            show (if eng.execution_count + 1 ≥ 50 then
                some ({ eligible := true, new_level := some 2 } : TrustElevation)
              else if eng.execution_count + 1 ≥ 10 then
                some ({ eligible := true, new_level := some 1 } : TrustElevation)
              else none) = some ({ eligible := true, new_level := some 2 } : TrustElevation)
            rw [if_pos h50a]
          · intro h10 h50
            have h10a : eng.execution_count + 1 ≥ 10 := h10
            have h50a : eng.execution_count + 1 < 50 := h50
            show (if eng.execution_count + 1 ≥ 50 then
                some ({ eligible := true, new_level := some 2 } : TrustElevation)
              else if eng.execution_count + 1 ≥ 10 then
                some ({ eligible := true, new_level := some 1 } : TrustElevation)
              else none) = some ({ eligible := true, new_level := some 1 } : TrustElevation)
            rw [if_neg (by omega), if_pos h10a]
          · intro h10
            have h10a : eng.execution_count + 1 < 10 := h10
            show (if eng.execution_count + 1 ≥ 50 then
                some ({ eligible := true, new_level := some 2 } : TrustElevation)
              else if eng.execution_count + 1 ≥ 10 then
                some ({ eligible := true, new_level := some 1 } : TrustElevation)
              else none) = none
            rw [if_neg (by omega), if_neg (by omega)]
        | escalated w cs deny =>
          have heq := Except.ok.inj h
          have hresp : _ = resp := congrArg Prod.fst heq
          subst hresp
          exact absurd hdec (fun hc => Decision.noConfusion hc)
        | fellThrough st =>
          have heq := Except.ok.inj h
          have hresp : _ = resp := congrArg Prod.fst heq
          subst hresp
          exact absurd hdec (resolveNoMatch_decision_ne_authorized st)
    · intro hdec
      cases hloop : checkLoop req (req.timestamp.getD now) eng.warrants {} with
      | error e => simp [check, hloop, exceptBind_error] at h
      | ok outcome =>
        simp only [check, hloop, exceptBind_ok] at h
        cases outcome with
        | authorized w cs =>
          have heq := Except.ok.inj h
          have hresp : _ = resp := congrArg Prod.fst heq
          subst hresp
          exact absurd rfl hdec
        | escalated w cs deny =>
          have heq := Except.ok.inj h
          have hresp : _ = resp := congrArg Prod.fst heq
          have heng : _ = eng2 := congrArg Prod.snd heq
          subst hresp
          subst heng
          exact ⟨rfl, rfl⟩
        | fellThrough st =>
          have heq := Except.ok.inj h
          have hresp : _ = resp := congrArg Prod.fst heq
          have heng : _ = eng2 := congrArg Prod.snd heq
          subst hresp
          subst heng
          exact ⟨resolveNoMatch_trust st, rfl⟩
  · intro hexdigest eng inputs
    induction inputs generalizing eng with
    | nil => exact Nat.le_refl _
    | cons i rest ih =>
      unfold runChecks
      cases hck : check hexdigest i.rid i.contentTs i.recordTs i.now eng i.req with
      | ok pair =>
        exact Nat.le_trans
          (check_count_le hexdigest i.rid i.contentTs i.recordTs i.now eng i.req
            pair.1 pair.2 (by rw [hck]))
          (ih pair.2)
      | error e => exact ih eng

/-- Witness for C7: a concrete AUTHORIZED check increments the counter from
0 to 1, carries no trust elevation below the tier-1 threshold, and the
counter is monotone across a further sequence of calls. -/
theorem trust_elevation_counter_witness :
    ∃ resp eng2,
      check idHex "r" "t" "t" 0 { warrants := [wOk] } reqBig =
        Except.ok (resp, eng2) ∧
      eng2.execution_count = 1 ∧ resp.trust_elevation = none ∧
      eng2.execution_count ≤
        (runChecks idHex eng2 [{ req := reqBig }]).execution_count := by
  refine ⟨_, _, rfl, ?_, ?_, ?_⟩
  · have H := (trust_elevation_counter.1 idHex "r" "t" "t" 0 { warrants := [wOk] }
      reqBig _ _ rfl).1 rfl
    exact H.1
  · have H := (trust_elevation_counter.1 idHex "r" "t" "t" 0 { warrants := [wOk] }
      reqBig _ _ rfl).1 rfl
    exact H.2.2.2 (by decide)
  · exact trust_elevation_counter.2 idHex _ [{ req := reqBig }]
